import Mathlib

/-!
Verification of the ccenv state-swap engine.

The source program (src/ccenv.ts, src/storage.ts) swaps logical "environments"
in and out of a single git checkout.  Its working-tree state is captured here
semantically: tracked file contents of the current commit, the index, the
working tree, and the untracked file set are finite-support maps from paths to
contents; `git diff` is an exact per-file delta and `git apply` its exact
inverse on a correctly based tree.  The repository code (dumpEnv,
cleanWorkspace, restoreEnv, enterEnv, exitEnv, createEnv, deleteEnv, listEnvs,
readState, acquireLock, releaseLock, and the `run` wrapper) is translated
operation by operation, with an explicit trace of destructive effects.
-/

namespace Ccenv

/-- Contents of a set of files: path to content, `none` when the file is absent. -/
def FileMap : Type := String → Option String

instance : Inhabited FileMap := ⟨fun _ => none⟩

/-- One file-level delta of a binary-safe git patch: the recorded pre-image and
post-image of a single path (`none` = file absent on that side). -/
structure Hunk where
  path : String
  pre : Option String
  post : Option String
deriving DecidableEq

/-- `git diff` between two file states, enumerated over the finite path universe
`ps`: one hunk per path whose content differs. -/
def diffFiles (ps : List String) (a b : FileMap) : List Hunk :=
  ps.filterMap fun p => if a p = b p then none else some ⟨p, a p, b p⟩

/-- Point update of a file map. -/
def updMap (m : FileMap) (p : String) (v : Option String) : FileMap :=
  fun q => if q = p then v else m q

/-- Apply a single hunk: succeeds exactly when the file currently matches the
hunk's recorded pre-image (`git apply` refuses a wrong base). -/
def applyHunk (m : FileMap) (h : Hunk) : Option FileMap :=
  if m h.path = h.pre then some (updMap m h.path h.post) else none

/-- `git apply`: apply every hunk of a patch in order; fails if any base mismatches. -/
def applyPatch (hs : List Hunk) (m : FileMap) : Option FileMap :=
  hs.foldlM applyHunk m

theorem updMap_self (m : FileMap) (p : String) (v : Option String) :
    updMap m p v p = v := by
  simp [updMap]

theorem updMap_other (m : FileMap) (p q : String) (v : Option String) (h : q ≠ p) :
    updMap m p v q = m q := by
  simp [updMap, h]

/-- Exactness of patch application, generalized over the starting map: applying
`diffFiles ps a b` to any map that agrees with `a` on `ps` rewrites `ps` to `b`
and leaves everything else alone. -/
theorem applyPatch_diffFiles_gen (a b : FileMap) :
    ∀ (ps : List String) (m : FileMap), ps.Nodup → (∀ p ∈ ps, m p = a p) →
    ∃ r, applyPatch (diffFiles ps a b) m = some r ∧
      (∀ p ∈ ps, r p = b p) ∧ (∀ p, p ∉ ps → r p = m p) := by
  intro ps
  induction ps with
  | nil =>
    intro m _ _
    exact ⟨m, rfl, by simp, fun p _ => rfl⟩
  | cons p ps ih =>
    intro m hnd hagree
    have hpm : m p = a p := hagree p (by simp)
    have hnd' : ps.Nodup := hnd.of_cons
    have hpnotin : p ∉ ps := by
      have := List.nodup_cons.mp hnd
      exact this.1
    by_cases hab : a p = b p
    · have hdiff : diffFiles (p :: ps) a b = diffFiles ps a b := by
        simp [diffFiles, List.filterMap_cons, hab]
      obtain ⟨r, hr, hin, hout⟩ := ih m hnd' (fun q hq => hagree q (by simp [hq]))
      refine ⟨r, by rw [hdiff]; exact hr, ?_, ?_⟩
      · intro q hq
        rcases List.mem_cons.mp hq with hq | hq
        · subst hq
          rw [hout q hpnotin, hpm, hab]
        · exact hin q hq
      · intro q hq
        exact hout q (fun hmem => hq (List.mem_cons.mpr (Or.inr hmem)))
    · have hdiff : diffFiles (p :: ps) a b =
          ⟨p, a p, b p⟩ :: diffFiles ps a b := by
        simp [diffFiles, List.filterMap_cons, hab]
      have hstep : applyHunk m ⟨p, a p, b p⟩ = some (updMap m p (b p)) := by
        simp [applyHunk, hpm]
      have hpre : ∀ q ∈ ps, updMap m p (b p) q = a q := by
        intro q hq
        have hq2 : q ≠ p := fun he => (hpnotin (he ▸ hq))
        rw [updMap_other _ _ _ _ hq2]
        exact hagree q (by simp [hq])
      obtain ⟨r, hr, hin, hout⟩ := ih (updMap m p (b p)) hnd' hpre
      refine ⟨r, ?_, ?_, ?_⟩
      · rw [hdiff]
        simpa [applyPatch, List.foldlM_cons, hstep] using hr
      · intro q hq
        rcases List.mem_cons.mp hq with hq | hq
        · subst hq
          rw [hout q hpnotin, updMap_self]
        · exact hin q hq
      · intro q hq
        have hq1 : q ∉ ps := fun hmem => hq (List.mem_cons.mpr (Or.inr hmem))
        have hq2 : q ≠ p := fun he => hq (by simp [he])
        rw [hout q hq1, updMap_other _ _ _ _ hq2]

/-- Exactness of patch application on the correct base. -/
theorem applyPatch_diffFiles (ps : List String) (a b : FileMap) (hnd : ps.Nodup) :
    ∃ r, applyPatch (diffFiles ps a b) a = some r ∧
      (∀ p ∈ ps, r p = b p) ∧ (∀ p, p ∉ ps → r p = a p) :=
  applyPatch_diffFiles_gen a b ps a hnd (fun _ _ => rfl)

/-- An empty diff means the two states agree on the whole path universe. -/
theorem diffFiles_eq_nil_iff (ps : List String) (a b : FileMap) :
    diffFiles ps a b = [] ↔ ∀ p ∈ ps, a p = b p := by
  constructor
  · intro h p hp
    by_contra hne
    have : (if a p = b p then none else some (Hunk.mk p (a p) (b p))) = none := by
      have := List.filterMap_eq_nil_iff.mp h _ hp
      exact this
    simp [hne] at this
  · intro h
    apply List.filterMap_eq_nil_iff.mpr
    intro p hp
    simp [h p hp]

/-- The surrounding git repository: branch tips, known commit ids, and the
tracked file contents of each commit. -/
structure Repo where
  branches : List (String × String)
  commits : List String
  commitFiles : String → FileMap

/-- The live working checkout: current commit, current branch name (`"HEAD"`
when detached, as printed by `git rev-parse --abbrev-ref HEAD`), the index, the
working-tree contents of tracked files, and the untracked (non-ignored) files. -/
structure Tree where
  head : String
  branch : String
  index : FileMap
  work : FileMap
  untr : FileMap

/-- The untracked-file filter of `dumpEnv`: the control directory is excluded
from enumeration (`entry !== ".ccenv" && !entry.startsWith(".ccenv/")`). -/
def isCcenvPath (p : String) : Bool :=
  p == ".ccenv" || p.startsWith ".ccenv/"

/-- Contents of `info.json`, written by `writeInfo`. -/
structure EnvInfo where
  headHash : String
  branch : String
  timestamp : Nat
deriving DecidableEq

/-- One slot's on-disk bundle: `staged.patch`, `unstaged.patch`,
`untracked.tar.gz` (absent when no untracked files), `info.json`.
A patch file is empty exactly when its hunk list is empty. -/
structure Bundle where
  staged : List Hunk
  unstaged : List Hunk
  untrackedArchive : Option FileMap
  info : Option EnvInfo

/-- `dumpEnv`: snapshot the tree's uncommitted delta into a bundle.  The staged
patch is `git diff --cached` (HEAD vs index), the unstaged patch is `git diff`
(index vs tree), the archive holds the untracked files minus the control
directory and is absent (stale copies removed) when that set is empty, and
`writeInfo` records HEAD, branch and the capture time.  The tree itself is not
mutated. -/
def dumpEnv (repo : Repo) (ps : List String) (now : Nat) (t : Tree) : Bundle :=
  let untrackedFiltered : List String :=
    (ps.filter fun p => (t.untr p).isSome).filter fun p => !(isCcenvPath p)
  { staged := diffFiles ps (repo.commitFiles t.head) t.index
    unstaged := diffFiles ps t.index t.work
    untrackedArchive :=
      if untrackedFiltered.isEmpty then none
      else some (fun p => if p ∈ untrackedFiltered then t.untr p else none)
    info := some { headHash := t.head, branch := t.branch, timestamp := now } }

/-- `cleanWorkspace`: `git reset --hard HEAD` (index and tracked working files
back to HEAD) then `git clean -fd -e .ccenv/ -e .ccenv` (remove untracked files
except the control directory). -/
def cleanWorkspace (repo : Repo) (t : Tree) : Tree :=
  { head := t.head
    branch := t.branch
    index := repo.commitFiles t.head
    work := repo.commitFiles t.head
    untr := fun p => if isCcenvPath p then t.untr p else none }

/-- `git checkout <target>`: a branch name moves HEAD to the branch tip, a bare
commit id detaches HEAD; an unknown target fails.  Modelled on a clean tree
(restoreEnv runs it right after a reset): index and tracked working files
follow the new commit, untracked files are kept. -/
def gitCheckout (repo : Repo) (t : Tree) (target : String) : Option Tree :=
  match repo.branches.lookup target with
  | some h =>
    some { head := h, branch := target
           index := repo.commitFiles h, work := repo.commitFiles h, untr := t.untr }
  | none =>
    if target ∈ repo.commits then
      some { head := target, branch := "HEAD"
             index := repo.commitFiles target, work := repo.commitFiles target
             untr := t.untr }
    else none

/-- Destructive effects, in the order the program performs them. -/
inductive Eff
| cleanEff
| checkoutBranchEff (target : String) (ok : Bool)
| checkoutHashEff (target : String) (ok : Bool)
| untarEff
| applyStagedIndexEff
| applyStagedTreeEff
| applyUnstagedTreeEff
| dumpEff (slot : String)
| writeStateEff (name : String)
| rmStateEff
| sleepEff
| spawnEff
| exitForceEff
deriving DecidableEq

/-- The VCS-position step of `restoreEnv`: if the recorded branch is non-empty
and not the detached sentinel, try to check it out, falling back to the recorded
commit id (when non-empty) if that fails; otherwise check out the commit id
directly when non-empty.  Every failure is caught and only logged — the tree
position is left as it was and restoration continues. -/
def restoreGitPos (repo : Repo) (t : Tree) (info : EnvInfo) : Tree × List Eff :=
  if info.branch ≠ "" ∧ info.branch ≠ "HEAD" then
    match gitCheckout repo t info.branch with
    | some t1 => (t1, [Eff.checkoutBranchEff info.branch true])
    | none =>
      if info.headHash ≠ "" then
        match gitCheckout repo t info.headHash with
        | some t1 =>
          (t1, [Eff.checkoutBranchEff info.branch false,
                Eff.checkoutHashEff info.headHash true])
        | none =>
          (t, [Eff.checkoutBranchEff info.branch false,
               Eff.checkoutHashEff info.headHash false])
      else (t, [Eff.checkoutBranchEff info.branch false])
  else
    if info.headHash ≠ "" then
      match gitCheckout repo t info.headHash with
      | some t1 => (t1, [Eff.checkoutHashEff info.headHash true])
      | none => (t, [Eff.checkoutHashEff info.headHash false])
    else (t, [])

/-- `tar -xzf` of the untracked archive into the working directory: archived
files reappear with their archived contents, other files are untouched. -/
def extractArchive (ar : FileMap) (t : Tree) : Tree :=
  { t with untr := fun p => match ar p with | some c => some c | none => t.untr p }

/-- The staged-patch step of `restoreEnv`: skipped when the patch file is
empty, otherwise `git apply --cached` (index) then `git apply` (tree); a base
mismatch is fatal.  Returns (error?, tree so far, effects so far). -/
def applyStagedPart (b : Bundle) (t : Tree) : Option String × Tree × List Eff :=
  if b.staged.isEmpty then (none, t, [])
  else
    match applyPatch b.staged t.index with
    | none => (some "git apply --cached failed", t, [])
    | some idx =>
      match applyPatch b.staged t.work with
      | none =>
        (some "git apply failed", { t with index := idx }, [Eff.applyStagedIndexEff])
      | some wk =>
        (none, { t with index := idx, work := wk },
         [Eff.applyStagedIndexEff, Eff.applyStagedTreeEff])

/-- The unstaged-patch step of `restoreEnv`: skipped when the patch file is
empty, otherwise `git apply` onto the tree. -/
def applyUnstagedPart (b : Bundle) (t : Tree) : Option String × Tree × List Eff :=
  if b.unstaged.isEmpty then (none, t, [])
  else
    match applyPatch b.unstaged t.work with
    | none => (some "git apply failed", t, [])
    | some wk => (none, { t with work := wk }, [Eff.applyUnstagedTreeEff])

/-- `restoreEnv(sourceDir, {clean})`: optionally reset the workspace, then the
non-fatal VCS-position step from `info.json`, then extract the untracked
archive if present, then apply the staged patch to index and tree if non-empty,
then apply the unstaged patch to the tree if non-empty.  Patch failures are
fatal and leave the steps already performed in place (no rollback).
First, the VCS-position step of the bundle, skipped when `info.json` is
absent. -/
def restoreVcsStep (repo : Repo) (b : Bundle) (t0 : Tree) : Tree × List Eff :=
  match b.info with
  | some info => restoreGitPos repo t0 info
  | none => (t0, [])

/-- The untracked-archive step of `restoreEnv`: extract the archive when the
slot has one. -/
def restoreUntarStep (b : Bundle) (t1 : Tree) : Tree × List Eff :=
  match b.untrackedArchive with
  | some ar => (extractArchive ar t1, [Eff.untarEff])
  | none => (t1, [])

def restoreEnv (repo : Repo) (clean : Bool) (b : Bundle) (t : Tree) :
    Option String × Tree × List Eff :=
  let t0 := if clean then cleanWorkspace repo t else t
  let e0 : List Eff := if clean then [Eff.cleanEff] else []
  let s1 := restoreVcsStep repo b t0
  let s2 := restoreUntarStep b s1.1
  match applyStagedPart b s2.1 with
  | (some e, t3, e3) => (some e, t3, e0 ++ s1.2 ++ s2.2 ++ e3)
  | (none, t3, e3) =>
    match applyUnstagedPart b t3 with
    | (e4, t4, effs4) => (e4, t4, e0 ++ s1.2 ++ s2.2 ++ e3 ++ effs4)

/-- Parsed contents of the state file (`StateFile` in storage.ts). -/
structure StateFile where
  activeEnv : String
  hostEnv : String
  timestamp : Nat
deriving DecidableEq

/-- Raw contents of the state file on disk: either text that parses as a state
record, or text `JSON.parse` rejects. -/
inductive StateContent
| valid (st : StateFile)
| invalid
deriving DecidableEq

/-- `readState`: read and parse the state file; a missing file or a parse
error both land in the catch block and yield `null`. -/
def readState : Option StateContent → Option StateFile
| some (StateContent.valid st) => some st
| some StateContent.invalid => none
| none => none

/-- Result of `acquireLock`'s create-retry loop. -/
inductive LockResult
| acquired (elapsedMs : Nat)
| timedOut (heldBy : String)
deriving DecidableEq

/-- The retry loop of `acquireLock`: `lockAt e` is the lock-file content seen by
the exclusive create attempted at elapsed time `e` (`none` = absent, so the
`wx` create succeeds; `some s` = EEXIST with `s` the holder's recorded payload).
On contention the caller checks the deadline (`Date.now() - start > timeoutMs`),
failing with the holder's recorded identity past it, and otherwise sleeps the
fixed 100 ms interval and retries. -/
def acquireLockLoop (lockAt : Nat → Option String) (timeoutMs : Nat) (e : Nat) :
    LockResult :=
  match lockAt e with
  | none => LockResult.acquired e
  | some held =>
    if h : timeoutMs < e then LockResult.timedOut held
    else acquireLockLoop lockAt timeoutMs (e + 100)
termination_by timeoutMs + 1 - e
decreasing_by
  simp_wf
  omega

/-- `acquireLock(lockFile, timeoutMs = 30000)` starts its loop at elapsed 0. -/
def acquireLock (lockAt : Nat → Option String) (timeoutMs : Nat := 30000) :
    LockResult :=
  acquireLockLoop lockAt timeoutMs 0

/-- `releaseLock`: best-effort `rm` of the marker; the catch block swallows a
missing file, so the call always succeeds and leaves the marker absent. -/
def releaseLock (_lock : Option String) : Option String × Bool :=
  (none, true)

/-- The reserved host slot name (`DEFAULT_HOST_ENV`). -/
def DEFAULT_HOST_ENV : String := "default"

/-- The engine's on-disk state other than the tree: the slot store
(`envs/<name>/`), and the raw state file. -/
structure Sys where
  tree : Tree
  slots : List (String × Bundle)
  stateRaw : Option StateContent

/-- Look up a slot directory by name (`fileExists(envDir)` + its contents). -/
def getSlot (ss : List (String × Bundle)) (n : String) : Option Bundle :=
  ss.lookup n

/-- Slot existence check. -/
def hasSlot (ss : List (String × Bundle)) (n : String) : Bool :=
  (getSlot ss n).isSome

/-- Write a slot's bundle wholesale (dumpEnv overwrites every artifact). -/
def putSlot (ss : List (String × Bundle)) (n : String) (b : Bundle) :
    List (String × Bundle) :=
  (n, b) :: ss.filter fun e => !(e.1 == n)

/-- Remove a slot directory recursively. -/
def removeSlot (ss : List (String × Bundle)) (n : String) : List (String × Bundle) :=
  ss.filter fun e => !(e.1 == n)

/-- Outcome of `enterEnv`: error message if it threw, the boolean it returned
(whether an actual swap occurred), the resulting on-disk state, and the
destructive effects performed. -/
structure EnterOut where
  err : Option String
  swapped : Bool
  sys : Sys
  effs : List Eff

/-- `enterEnv(name)`: requires the slot to exist; under the lock it reads the
state file.  If the tree is already occupied by `name` it returns `false` at
once — no sleep, no destructive step.  If it is occupied by another name the
loop releases, sleeps and re-polls; in this sequential model no other actor
ever mutates the state file, so the loop runs to the five-minute deadline and
fails (the interleaved model below keeps the loop explicit).  If the tree is
free: dump the host snapshot into the reserved slot, reset the workspace,
restore the requested slot (reading it after the host dump may have overwritten
it), and write the occupancy record. -/
def enterEnv (repo : Repo) (ps : List String) (now : Nat) (name : String)
    (s : Sys) : EnterOut :=
  match getSlot s.slots name with
  | none => { err := some "Environment not found", swapped := false, sys := s, effs := [] }
  | some envB0 =>
    match readState s.stateRaw with
    | some st =>
      if st.activeEnv = name then
        { err := none, swapped := false, sys := s, effs := [] }
      else
        { err := some "Timeout waiting for environment to be free",
          swapped := false, sys := s, effs := [Eff.sleepEff] }
    | none =>
      let hostB := dumpEnv repo ps now s.tree
      let slots1 := putSlot s.slots DEFAULT_HOST_ENV hostB
      let t1 := cleanWorkspace repo s.tree
      let envB := if name = DEFAULT_HOST_ENV then hostB else envB0
      match restoreEnv repo false envB t1 with
      | (some e, t2, effs2) =>
        { err := some e, swapped := false
          sys := { tree := t2, slots := slots1, stateRaw := s.stateRaw }
          effs := [Eff.dumpEff DEFAULT_HOST_ENV, Eff.cleanEff] ++ effs2 }
      | (none, t2, effs2) =>
        { err := none, swapped := true
          sys := { tree := t2, slots := slots1
                   stateRaw := some (StateContent.valid
                     { activeEnv := name, hostEnv := DEFAULT_HOST_ENV, timestamp := now }) }
          effs := [Eff.dumpEff DEFAULT_HOST_ENV, Eff.cleanEff] ++ effs2
                    ++ [Eff.writeStateEff name] }

/-- Outcome of `exitEnv`. -/
structure ExitOut where
  err : Option String
  sys : Sys
  effs : List Eff

/-- The destructive phase of `exitEnv`, reached once the identity check has
passed: dump the current tree into the active slot (ensureEnvDir creates it),
reset the workspace, require the recorded host snapshot to exist, restore it,
and remove the state file.  Failures keep the steps already performed. -/
def exitSwap (repo : Repo) (ps : List String) (now : Nat) (st : StateFile)
    (s : Sys) : ExitOut :=
  let envB := dumpEnv repo ps now s.tree
  let slots1 := putSlot s.slots st.activeEnv envB
  let t1 := cleanWorkspace repo s.tree
  match getSlot slots1 st.hostEnv with
  | none =>
    { err := some "Host snapshot not found"
      sys := { tree := t1, slots := slots1, stateRaw := s.stateRaw }
      effs := [Eff.dumpEff st.activeEnv, Eff.cleanEff] }
  | some hostB =>
    match restoreEnv repo false hostB t1 with
    | (some e, t2, effs2) =>
      { err := some e
        sys := { tree := t2, slots := slots1, stateRaw := s.stateRaw }
        effs := [Eff.dumpEff st.activeEnv, Eff.cleanEff] ++ effs2 }
    | (none, t2, effs2) =>
      { err := none
        sys := { tree := t2, slots := slots1, stateRaw := none }
        effs := [Eff.dumpEff st.activeEnv, Eff.cleanEff] ++ effs2 ++ [Eff.rmStateEff] }

/-- `exitEnv({force})`.  `claimed` is the caller's ambient identity
(`process.env.CCENV_ACTIVE`).  No state record: succeed as a no-op.  Without
`force`, a claimed identity differing from the active environment is rejected
before any mutation.  Otherwise the destructive phase runs. -/
def exitEnv (repo : Repo) (ps : List String) (now : Nat) (claimed : Option String)
    (force : Bool) (s : Sys) : ExitOut :=
  match readState s.stateRaw with
  | none => { err := none, sys := s, effs := [] }
  | some st =>
    if force = false ∧ claimed ≠ some st.activeEnv then
      { err := some "Cannot exit environment", sys := s, effs := [] }
    else exitSwap repo ps now st s

/-- The empty bundle that §4.3 of the spec says `create` writes: "an empty
Bundle (empty patches, metadata only)".  Stated from the spec's words, to be
compared with both code paths of `createEnv`. -/
def specEmptyBundle (headHash branch : String) (now : Nat) : Bundle :=
  { staged := [], unstaged := [], untrackedArchive := none
    info := some { headHash := headHash, branch := branch, timestamp := now } }

/-- `createEnv(name, {empty})`: fails if the slot exists; otherwise writes an
empty staged patch, an empty unstaged patch and `info.json` — the `--empty`
branch and the default branch are kept as the two separate code paths of the
source. -/
def createEnv (name : String) (empty : Bool) (now : Nat) (s : Sys) :
    Option String × Sys :=
  if hasSlot s.slots name then (some "Environment already exists", s)
  else
    if empty then
      let b : Bundle :=
        { staged := [], unstaged := [], untrackedArchive := none
          info := some { headHash := s.tree.head, branch := s.tree.branch
                         timestamp := now } }
      (none, { s with slots := putSlot s.slots name b })
    else
      let b : Bundle :=
        { staged := [], unstaged := [], untrackedArchive := none
          info := some { headHash := s.tree.head, branch := s.tree.branch
                         timestamp := now } }
      (none, { s with slots := putSlot s.slots name b })

/-- `deleteEnv(name)`: fails when the slot directory is missing, or when the
state record names `name` as the active environment; otherwise removes the slot
recursively.  No special case protects the reserved host slot. -/
def deleteEnv (name : String) (s : Sys) : Option String × Sys :=
  if hasSlot s.slots name then
    match readState s.stateRaw with
    | some st =>
      if st.activeEnv = name then (some "Cannot delete active environment", s)
      else (none, { s with slots := removeSlot s.slots name })
    | none => (none, { s with slots := removeSlot s.slots name })
  else (some "Environment not found", s)

/-- `listEnvs`: enumerate slot names, hiding the reserved host slot and
dot-prefixed entries. -/
def listEnvs (s : Sys) : List String :=
  (s.slots.map fun e => e.1).filter fun e =>
    !(e == DEFAULT_HOST_ENV) && !(e.startsWith ".")

/-- The signals the `run` wrapper handles. -/
inductive Sig
| sigint
| sigterm
deriving DecidableEq

/-- The exit status the `run` wrapper's signal handlers pass to `process.exit`:
`onSignal("SIGINT", 130)` and `onSignal("SIGTERM", 143)`. -/
def signalCode : Sig → Nat
| Sig.sigint => 130
| Sig.sigterm => 143

/-- Outcome of `ccenv run` (non-signal path): error message if the process
threw, its final exit status, the resulting on-disk state, and the trace. -/
structure RunOut where
  err : Option String
  status : Nat
  sys : Sys
  effs : List Eff

/-- The `run` case of `main` (no signal delivered): `entered = await
enterEnv(...)` — the boolean `enterEnv` returned, not merely the fact that it
returned; spawn the child (which exits with `childCode`); then the `finally`
block calls `exitEnv({force: true})` only when `entered` is true.  On success
the process exits with the child's status; an `enterEnv` throw propagates, and
a cleanup throw overrides the child's status via the top-level catch (exit 1). -/
def runMain (repo : Repo) (ps : List String) (now : Nat) (name : String)
    (claimed : Option String) (childCode : Nat) (s : Sys) : RunOut :=
  let ent := enterEnv repo ps now name s
  match ent.err with
  | some e => { err := some e, status := 1, sys := ent.sys, effs := ent.effs }
  | none =>
    let effsChild := ent.effs ++ [Eff.spawnEff]
    if ent.swapped then
      let ex := exitEnv repo ps now claimed true ent.sys
      match ex.err with
      | some e =>
        { err := some e, status := 1, sys := ex.sys
          effs := effsChild ++ [Eff.exitForceEff] ++ ex.effs }
      | none =>
        { err := none, status := childCode, sys := ex.sys
          effs := effsChild ++ [Eff.exitForceEff] ++ ex.effs }
    else
      { err := none, status := childCode, sys := ent.sys, effs := effsChild }

end Ccenv

namespace Ccenv.Mutex

/-!
Interleaved model of `enterEnv`/`exitEnv` across independent OS processes, for
the mutual-exclusion property.  Each process is a program counter over the
atomic filesystem steps of the source; the shared state is the lock marker
(`acquireLock`'s exclusive create / `releaseLock`'s delete) and the state
file's active-environment field.  Steps that need no lock-holder premise are
guarded exactly as the filesystem guards them: the exclusive create succeeds
only when the marker is absent.
-/

/-- Program counter of an `enterEnv` process: one position per atomic step of
the wait-loop body (acquire, read state, and when busy: the explicit release,
then the sleep, then — because `continue` runs the `finally` block — a second
release before retrying; the four destructive steps when free; the `finally`
release on the return paths). -/
inductive EnterPC
| tryLock
| readSt
| waitRel
| sleeping
| dumpHost
| cleanW
| restoreE
| writeSt
| unlock (r : Bool)
| done (r : Bool)
| doneErr
deriving DecidableEq

/-- Program counter of an `exitEnv` process. -/
inductive ExitPC
| tryLock
| readSt
| dumpE
| cleanW
| restoreH
| rmSt
| unlockOk
| unlockErr
| doneOk
| doneErr
deriving DecidableEq

/-- A process: an `enter name` call or an `exit {claimed, force}` call. -/
inductive Proc
| enterP (name : String) (pc : EnterPC)
| exitP (claimed : Option String) (force : Bool) (pc : ExitPC)
deriving DecidableEq

/-- Shared state: lock marker (holder's process id), state file's active
environment, and every process. -/
structure CSys where
  lock : Option Nat
  occ : Option String
  procs : Nat → Proc

/-- Replace process `i`'s state. -/
def setP (f : Nat → Proc) (i : Nat) (p : Proc) : Nat → Proc :=
  fun j => if j = i then p else f j

/-- Whether this program position is inside the lock-protected critical
section (between a successful exclusive create and the matching release). -/
def needsLock : Proc → Bool
| Proc.enterP _ pc =>
  match pc with
  | EnterPC.tryLock => false
  | EnterPC.sleeping => false
  | EnterPC.done _ => false
  | EnterPC.doneErr => false
  | _ => true
| Proc.exitP _ _ pc =>
  match pc with
  | ExitPC.tryLock => false
  | ExitPC.doneOk => false
  | ExitPC.doneErr => false
  | _ => true

/-- Whether an `enterEnv` process is in its destructive phase (snapshot,
reset, restore, state write). -/
def enterDestr : Proc → Bool
| Proc.enterP _ pc =>
  match pc with
  | EnterPC.dumpHost => true
  | EnterPC.cleanW => true
  | EnterPC.restoreE => true
  | EnterPC.writeSt => true
  | _ => false
| Proc.exitP _ _ _ => false

/-- Whether an `exitEnv` process is in its destructive phase. -/
def exitDestr : Proc → Bool
| Proc.exitP _ _ pc =>
  match pc with
  | ExitPC.dumpE => true
  | ExitPC.cleanW => true
  | ExitPC.restoreH => true
  | ExitPC.rmSt => true
  | _ => false
| Proc.enterP _ _ => false

/-- A process that has not started its call yet. -/
def atStart : Proc → Bool
| Proc.enterP _ pc => pc = EnterPC.tryLock
| Proc.exitP _ _ pc => pc = ExitPC.tryLock

/-- One interleaved step: some process advances by one atomic action of the
source.  Error transitions model thrown git failures and the acquisition
timeout; each critical section releases the lock on every exit path.  The busy
path of `enterEnv` performs two releases: the explicit `releaseLock` before the
sleep (`enterWait`), and — because `continue` runs the `finally` block after
the sleep — a second unconditional `fs.rm` of the marker (`enterWake`), which
deletes whichever process currently holds the lock. -/
inductive CStep : CSys → CSys → Prop
| enterLock (s : CSys) (i : Nat) (name : String) :
    s.lock = none → s.procs i = Proc.enterP name EnterPC.tryLock →
    CStep s ⟨some i, s.occ, setP s.procs i (Proc.enterP name EnterPC.readSt)⟩
| enterTimeout (s : CSys) (i : Nat) (name : String) :
    s.procs i = Proc.enterP name EnterPC.tryLock →
    CStep s ⟨s.lock, s.occ, setP s.procs i (Proc.enterP name EnterPC.doneErr)⟩
| enterReadSame (s : CSys) (i : Nat) (name : String) :
    s.procs i = Proc.enterP name EnterPC.readSt → s.occ = some name →
    CStep s ⟨s.lock, s.occ, setP s.procs i (Proc.enterP name (EnterPC.unlock false))⟩
| enterReadBusy (s : CSys) (i : Nat) (name m : String) :
    s.procs i = Proc.enterP name EnterPC.readSt → s.occ = some m → m ≠ name →
    CStep s ⟨s.lock, s.occ, setP s.procs i (Proc.enterP name EnterPC.waitRel)⟩
| enterWait (s : CSys) (i : Nat) (name : String) :
    s.procs i = Proc.enterP name EnterPC.waitRel →
    CStep s ⟨none, s.occ, setP s.procs i (Proc.enterP name EnterPC.sleeping)⟩
| enterWake (s : CSys) (i : Nat) (name : String) :
    s.procs i = Proc.enterP name EnterPC.sleeping →
    CStep s ⟨none, s.occ, setP s.procs i (Proc.enterP name EnterPC.tryLock)⟩
| enterReadFree (s : CSys) (i : Nat) (name : String) :
    s.procs i = Proc.enterP name EnterPC.readSt → s.occ = none →
    CStep s ⟨s.lock, s.occ, setP s.procs i (Proc.enterP name EnterPC.dumpHost)⟩
| enterDump (s : CSys) (i : Nat) (name : String) :
    s.procs i = Proc.enterP name EnterPC.dumpHost →
    CStep s ⟨s.lock, s.occ, setP s.procs i (Proc.enterP name EnterPC.cleanW)⟩
| enterClean (s : CSys) (i : Nat) (name : String) :
    s.procs i = Proc.enterP name EnterPC.cleanW →
    CStep s ⟨s.lock, s.occ, setP s.procs i (Proc.enterP name EnterPC.restoreE)⟩
| enterRestore (s : CSys) (i : Nat) (name : String) :
    s.procs i = Proc.enterP name EnterPC.restoreE →
    CStep s ⟨s.lock, s.occ, setP s.procs i (Proc.enterP name EnterPC.writeSt)⟩
| enterWrite (s : CSys) (i : Nat) (name : String) :
    s.procs i = Proc.enterP name EnterPC.writeSt →
    CStep s ⟨s.lock, some name, setP s.procs i (Proc.enterP name (EnterPC.unlock true))⟩
| enterFail (s : CSys) (i : Nat) (name : String) (pc : EnterPC) :
    s.procs i = Proc.enterP name pc → enterDestr (Proc.enterP name pc) = true →
    CStep s ⟨s.lock, s.occ, setP s.procs i (Proc.enterP name (EnterPC.unlock false))⟩
| enterUnlock (s : CSys) (i : Nat) (name : String) (r : Bool) :
    s.procs i = Proc.enterP name (EnterPC.unlock r) →
    CStep s ⟨none, s.occ, setP s.procs i (Proc.enterP name (EnterPC.done r))⟩
| exitLock (s : CSys) (i : Nat) (c : Option String) (f : Bool) :
    s.lock = none → s.procs i = Proc.exitP c f ExitPC.tryLock →
    CStep s ⟨some i, s.occ, setP s.procs i (Proc.exitP c f ExitPC.readSt)⟩
| exitTimeout (s : CSys) (i : Nat) (c : Option String) (f : Bool) :
    s.procs i = Proc.exitP c f ExitPC.tryLock →
    CStep s ⟨s.lock, s.occ, setP s.procs i (Proc.exitP c f ExitPC.doneErr)⟩
| exitReadNone (s : CSys) (i : Nat) (c : Option String) (f : Bool) :
    s.procs i = Proc.exitP c f ExitPC.readSt → s.occ = none →
    CStep s ⟨s.lock, s.occ, setP s.procs i (Proc.exitP c f ExitPC.unlockOk)⟩
| exitReadMismatch (s : CSys) (i : Nat) (c : Option String) (m : String) :
    s.procs i = Proc.exitP c false ExitPC.readSt → s.occ = some m → c ≠ some m →
    CStep s ⟨s.lock, s.occ, setP s.procs i (Proc.exitP c false ExitPC.unlockErr)⟩
| exitReadOk (s : CSys) (i : Nat) (c : Option String) (f : Bool) (m : String) :
    s.procs i = Proc.exitP c f ExitPC.readSt → s.occ = some m →
    (f = true ∨ c = some m) →
    CStep s ⟨s.lock, s.occ, setP s.procs i (Proc.exitP c f ExitPC.dumpE)⟩
| exitDump (s : CSys) (i : Nat) (c : Option String) (f : Bool) :
    s.procs i = Proc.exitP c f ExitPC.dumpE →
    CStep s ⟨s.lock, s.occ, setP s.procs i (Proc.exitP c f ExitPC.cleanW)⟩
| exitClean (s : CSys) (i : Nat) (c : Option String) (f : Bool) :
    s.procs i = Proc.exitP c f ExitPC.cleanW →
    CStep s ⟨s.lock, s.occ, setP s.procs i (Proc.exitP c f ExitPC.restoreH)⟩
| exitRestore (s : CSys) (i : Nat) (c : Option String) (f : Bool) :
    s.procs i = Proc.exitP c f ExitPC.restoreH →
    CStep s ⟨s.lock, s.occ, setP s.procs i (Proc.exitP c f ExitPC.rmSt)⟩
| exitRm (s : CSys) (i : Nat) (c : Option String) (f : Bool) :
    s.procs i = Proc.exitP c f ExitPC.rmSt →
    CStep s ⟨s.lock, none, setP s.procs i (Proc.exitP c f ExitPC.unlockOk)⟩
| exitFail (s : CSys) (i : Nat) (c : Option String) (f : Bool) (pc : ExitPC) :
    s.procs i = Proc.exitP c f pc → exitDestr (Proc.exitP c f pc) = true →
    CStep s ⟨s.lock, s.occ, setP s.procs i (Proc.exitP c f ExitPC.unlockErr)⟩
| exitUnlockOk (s : CSys) (i : Nat) (c : Option String) (f : Bool) :
    s.procs i = Proc.exitP c f ExitPC.unlockOk →
    CStep s ⟨none, s.occ, setP s.procs i (Proc.exitP c f ExitPC.doneOk)⟩
| exitUnlockErr (s : CSys) (i : Nat) (c : Option String) (f : Bool) :
    s.procs i = Proc.exitP c f ExitPC.unlockErr →
    CStep s ⟨none, s.occ, setP s.procs i (Proc.exitP c f ExitPC.doneErr)⟩

/-- Reachability from an initial state. -/
inductive Reach (s0 : CSys) : CSys → Prop
| refl : Reach s0 s0
| step {s s' : CSys} : Reach s0 s → CStep s s' → Reach s0 s'

/-- The inductive invariant: every process inside a critical section is the
lock holder, and an `enterEnv` process in its destructive phase sees no
occupancy record. -/
def Inv (s : CSys) : Prop :=
  (∀ i, needsLock (s.procs i) = true → s.lock = some i) ∧
  (∀ i, enterDestr (s.procs i) = true → s.occ = none)

/-- The environment name `n` currently occupies the tree. -/
def occupies (s : CSys) (n : String) : Prop := s.occ = some n

theorem enterDestr_needsLock {p : Proc} (h : enterDestr p = true) :
    needsLock p = true := by
  cases p with
  | enterP name pc => cases pc <;> first | rfl | exact absurd h (by simp [enterDestr])
  | exitP c f pc => exact absurd h (by simp [enterDestr])

theorem exitDestr_needsLock {p : Proc} (h : exitDestr p = true) :
    needsLock p = true := by
  cases p with
  | enterP name pc => exact absurd h (by simp [exitDestr])
  | exitP c f pc => cases pc <;> first | rfl | exact absurd h (by simp [exitDestr])

theorem setP_eq (f : Nat → Proc) (i : Nat) (p : Proc) : setP f i p i = p := by
  simp [setP]

theorem setP_ne (f : Nat → Proc) (i j : Nat) (p : Proc) (h : j ≠ i) :
    setP f i p j = f j := by
  simp [setP, h]

/-- Invariant preservation: a step that changes neither the lock nor the state
file, by a process that stays as locked as it was and enters the destructive
phase only under the free guard. -/
theorem inv_preserve_same {s : CSys} {i : Nat} {p' : Proc} (hinv : Inv s)
    (hneed : needsLock p' = true → needsLock (s.procs i) = true)
    (hdestr : enterDestr p' = true →
      enterDestr (s.procs i) = true ∨ s.occ = none) :
    Inv ⟨s.lock, s.occ, setP s.procs i p'⟩ := by
  obtain ⟨h1, h2⟩ := hinv
  constructor
  · intro j hj
    dsimp only at hj ⊢
    by_cases hji : j = i
    · subst hji
      rw [setP_eq] at hj
      exact h1 j (hneed hj)
    · rw [setP_ne _ _ _ _ hji] at hj
      exact h1 j hj
  · intro j hj
    dsimp only at hj ⊢
    by_cases hji : j = i
    · subst hji
      rw [setP_eq] at hj
      rcases hdestr hj with h | h
      · exact h2 j h
      · exact h
    · rw [setP_ne _ _ _ _ hji] at hj
      exact h2 j hj

/-- Invariant preservation: a successful exclusive create of the lock marker. -/
theorem inv_preserve_acquire {s : CSys} {i : Nat} {p' : Proc} (hinv : Inv s)
    (hlock : s.lock = none) (hd : enterDestr p' = false) :
    Inv ⟨some i, s.occ, setP s.procs i p'⟩ := by
  obtain ⟨h1, h2⟩ := hinv
  constructor
  · intro j hj
    dsimp only at hj ⊢
    by_cases hji : j = i
    · subst hji
      rfl
    · rw [setP_ne _ _ _ _ hji] at hj
      exact absurd (h1 j hj) (by simp [hlock])
  · intro j hj
    dsimp only at hj ⊢
    by_cases hji : j = i
    · subst hji
      rw [setP_eq] at hj
      simp [hd] at hj
    · rw [setP_ne _ _ _ _ hji] at hj
      have := h1 j (enterDestr_needsLock hj)
      simp [hlock] at this

/-- Invariant preservation: a lock holder releases the marker and leaves its
critical section. -/
theorem inv_preserve_release {s : CSys} {i : Nat} {p' : Proc} (hinv : Inv s)
    (hheld : needsLock (s.procs i) = true)
    (hn : needsLock p' = false) (hd : enterDestr p' = false) :
    Inv ⟨none, s.occ, setP s.procs i p'⟩ := by
  obtain ⟨h1, h2⟩ := hinv
  have hlock : s.lock = some i := h1 i hheld
  constructor
  · intro j hj
    dsimp only at hj ⊢
    by_cases hji : j = i
    · subst hji
      rw [setP_eq] at hj
      simp [hn] at hj
    · rw [setP_ne _ _ _ _ hji] at hj
      have := h1 j hj
      rw [hlock] at this
      exact absurd (Option.some.inj this).symm hji
  · intro j hj
    dsimp only at hj ⊢
    by_cases hji : j = i
    · subst hji
      rw [setP_eq] at hj
      simp [hd] at hj
    · rw [setP_ne _ _ _ _ hji] at hj
      have := h1 j (enterDestr_needsLock hj)
      rw [hlock] at this
      exact absurd (Option.some.inj this).symm hji

/-- Invariant preservation: a lock holder's step that keeps the lock and may
rewrite the state file, leaving the destructive phase. -/
theorem inv_preserve_holder_occ {s : CSys} {i : Nat} {p' : Proc}
    (occ' : Option String) (hinv : Inv s)
    (hheld : needsLock (s.procs i) = true)
    (_hneed : needsLock p' = true) (hd : enterDestr p' = false) :
    Inv ⟨s.lock, occ', setP s.procs i p'⟩ := by
  obtain ⟨h1, h2⟩ := hinv
  have hlock : s.lock = some i := h1 i hheld
  constructor
  · intro j hj
    dsimp only at hj ⊢
    by_cases hji : j = i
    · subst hji
      exact h1 j hheld
    · rw [setP_ne _ _ _ _ hji] at hj
      exact h1 j hj
  · intro j hj
    dsimp only at hj ⊢
    by_cases hji : j = i
    · subst hji
      rw [setP_eq] at hj
      simp [hd] at hj
    · rw [setP_ne _ _ _ _ hji] at hj
      have := h1 j (enterDestr_needsLock hj)
      rw [hlock] at this
      exact absurd (Option.some.inj this).symm hji

/-- No sleeping contender advances in this step: its post-sleep second
release — the one step of the protocol that can delete another process's lock
marker — does not fire. -/
def noWake (s s' : CSys) : Prop :=
  ∀ i n, s.procs i = Proc.enterP n EnterPC.sleeping →
    s'.procs i = Proc.enterP n EnterPC.sleeping

/-- The invariant is preserved by every interleaved step in which no sleeping
contender performs its post-sleep release.  It is not preserved by `enterWake`:
that step deletes the current holder's marker, which is exactly how the
exclusion breaks (see the C2 trace below). -/
theorem inv_step_noWake {s s' : CSys} (hinv : Inv s) (hstep : CStep s s')
    (hnw : noWake s s') : Inv s' := by
  cases hstep with
  | enterLock i name hlock hpi =>
    exact inv_preserve_acquire hinv hlock rfl
  | enterTimeout i name hpi =>
    exact inv_preserve_same hinv (by intro h; simp [needsLock] at h)
      (by intro h; simp [enterDestr] at h)
  | enterReadSame i name hpi hocc =>
    exact inv_preserve_same hinv (by intro _; rw [hpi]; rfl) (by intro h; simp [enterDestr] at h)
  | enterReadBusy i name m hpi hocc hne =>
    exact inv_preserve_same hinv (by intro _; rw [hpi]; rfl) (by intro h; simp [enterDestr] at h)
  | enterWait i name hpi =>
    exact inv_preserve_release hinv (by rw [hpi]; rfl) rfl rfl
  | enterWake i name hpi =>
    have h := hnw i name hpi
    simp [setP] at h
  | enterReadFree i name hpi hocc =>
    exact inv_preserve_same hinv (by intro _; rw [hpi]; rfl) (by intro _; exact Or.inr hocc)
  | enterDump i name hpi =>
    exact inv_preserve_same hinv (by intro _; rw [hpi]; rfl) (by intro _; exact Or.inl (by rw [hpi]; rfl))
  | enterClean i name hpi =>
    exact inv_preserve_same hinv (by intro _; rw [hpi]; rfl) (by intro _; exact Or.inl (by rw [hpi]; rfl))
  | enterRestore i name hpi =>
    exact inv_preserve_same hinv (by intro _; rw [hpi]; rfl) (by intro _; exact Or.inl (by rw [hpi]; rfl))
  | enterWrite i name hpi =>
    exact inv_preserve_holder_occ (some name) hinv (by rw [hpi]; rfl) rfl rfl
  | enterFail i name pc hpi hd =>
    exact inv_preserve_same hinv
      (by intro _; rw [hpi]; exact enterDestr_needsLock hd)
      (by intro h; simp [enterDestr] at h)
  | enterUnlock i name r hpi =>
    exact inv_preserve_release hinv (by rw [hpi]; rfl) rfl rfl
  | exitLock i c f hlock hpi =>
    exact inv_preserve_acquire hinv hlock rfl
  | exitTimeout i c f hpi =>
    exact inv_preserve_same hinv (by intro h; simp [needsLock] at h)
      (by intro h; simp [enterDestr] at h)
  | exitReadNone i c f hpi hocc =>
    exact inv_preserve_same hinv (by intro _; rw [hpi]; rfl) (by intro h; simp [enterDestr] at h)
  | exitReadMismatch i c m hpi hocc hne =>
    exact inv_preserve_same hinv (by intro _; rw [hpi]; rfl) (by intro h; simp [enterDestr] at h)
  | exitReadOk i c f m hpi hocc hok =>
    exact inv_preserve_same hinv (by intro _; rw [hpi]; rfl) (by intro h; simp [enterDestr] at h)
  | exitDump i c f hpi =>
    exact inv_preserve_same hinv (by intro _; rw [hpi]; rfl) (by intro h; simp [enterDestr] at h)
  | exitClean i c f hpi =>
    exact inv_preserve_same hinv (by intro _; rw [hpi]; rfl) (by intro h; simp [enterDestr] at h)
  | exitRestore i c f hpi =>
    exact inv_preserve_same hinv (by intro _; rw [hpi]; rfl) (by intro h; simp [enterDestr] at h)
  | exitRm i c f hpi =>
    exact inv_preserve_holder_occ none hinv (by rw [hpi]; rfl) rfl rfl
  | exitFail i c f pc hpi hd =>
    exact inv_preserve_same hinv
      (by intro _; rw [hpi]; exact exitDestr_needsLock hd)
      (by intro h; simp [enterDestr] at h)
  | exitUnlockOk i c f hpi =>
    exact inv_preserve_release hinv (by rw [hpi]; rfl) rfl rfl
  | exitUnlockErr i c f hpi =>
    exact inv_preserve_release hinv (by rw [hpi]; rfl) rfl rfl

/-- Initial system: lock absent, occupancy arbitrary, every process yet to
start. -/
def initSys (P : Nat → Proc) (occ0 : Option String) : CSys :=
  ⟨none, occ0, P⟩

theorem inv_init (P : Nat → Proc) (occ0 : Option String)
    (hP : ∀ i, atStart (P i) = true) : Inv (initSys P occ0) := by
  constructor
  · intro i hi
    dsimp only [initSys] at hi ⊢
    have := hP i
    cases hp : P i with
    | enterP name pc =>
      rw [hp] at this hi
      simp [atStart] at this
      subst this
      simp [needsLock] at hi
    | exitP c f pc =>
      rw [hp] at this hi
      simp [atStart] at this
      subst this
      simp [needsLock] at hi
  · intro i hi
    dsimp only [initSys] at hi ⊢
    have := hP i
    cases hp : P i with
    | enterP name pc =>
      rw [hp] at this hi
      simp [atStart] at this
      subst this
      simp [enterDestr] at hi
    | exitP c f pc =>
      rw [hp] at this hi
      simp [enterDestr] at hi

/-- Reachability along wake-free interleavings: no contending enter has yet
performed its post-sleep second release. -/
inductive QReach (s0 : CSys) : CSys → Prop
| refl : QReach s0 s0
| step {s s' : CSys} : QReach s0 s → CStep s s' → noWake s s' → QReach s0 s'

/-- Up to the first post-sleep release of a sleeping contender, the lock does
guarantee exclusion: in every wake-free reachable state at most one process is
inside the critical section and an enter in its destructive phase holds the
lock and sees no occupancy record.  This isolates the failure of the claimed
mutual exclusion to exactly the second release of the busy-wait path. -/
theorem inv_qreach {P : Nat → Proc} {occ0 : Option String} {s : CSys}
    (hP : ∀ i, atStart (P i) = true) (hr : QReach (initSys P occ0) s) : Inv s := by
  induction hr with
  | refl => exact inv_init P occ0 hP
  | step _ hstep hnw ih => exact inv_step_noWake ih hstep hnw

end Ccenv.Mutex

namespace Ccenv

/-- One-step unfolding of the acquireLock retry loop. -/
theorem acquireLockLoop_eq (lockAt : Nat → Option String) (timeoutMs e : Nat) :
    acquireLockLoop lockAt timeoutMs e =
      match lockAt e with
      | none => LockResult.acquired e
      | some held =>
        if timeoutMs < e then LockResult.timedOut held
        else acquireLockLoop lockAt timeoutMs (e + 100) := by
  rw [acquireLockLoop]
  cases lockAt e with
  | none => rfl
  | some held =>
    by_cases h : timeoutMs < e
    · simp [h]
    · simp [h]

/-- Against a permanently held lock, the loop always reaches the deadline and
fails reporting the holder. -/
theorem acquireLockLoop_held_aux (lockAt : Nat → Option String)
    (timeoutMs : Nat) (holder : String) (h : ∀ k, lockAt k = some holder) :
    ∀ n e, timeoutMs + 1 - e ≤ n →
      acquireLockLoop lockAt timeoutMs e = LockResult.timedOut holder := by
  intro n
  induction n with
  | zero =>
    intro e he
    have ht : timeoutMs < e := by omega
    rw [acquireLockLoop_eq, h e]
    simp [ht]
  | succ n ih =>
    intro e he
    rw [acquireLockLoop_eq, h e]
    by_cases ht : timeoutMs < e
    · simp [ht]
    · simp only [ht, if_false]
      exact ih (e + 100) (by omega)

end Ccenv

namespace Ccenv

/-- C6: lock acquisition is an exclusive create of a marker file, so an
existing marker means contention; a contended acquirer sleeps a fixed 100 ms
interval and retries until the overall deadline, after which acquisition fails
fatally reporting the identity recorded by the current holder; release deletes
the marker best-effort and a missing marker on release is not an error. -/
theorem ccenv_C6 (lockAt : Nat → Option String) (timeoutMs e : Nat)
    (held holder : String) :
    (lockAt e = none → acquireLockLoop lockAt timeoutMs e = LockResult.acquired e) ∧
    (lockAt e = some held → timeoutMs < e →
      acquireLockLoop lockAt timeoutMs e = LockResult.timedOut held) ∧
    (lockAt e = some held → ¬ timeoutMs < e →
      acquireLockLoop lockAt timeoutMs e = acquireLockLoop lockAt timeoutMs (e + 100)) ∧
    ((∀ k, lockAt k = some holder) →
      acquireLock lockAt timeoutMs = LockResult.timedOut holder) ∧
    releaseLock (some held) = (none, true) ∧ releaseLock none = (none, true) := by
  refine ⟨?_, ?_, ?_, ?_, rfl, rfl⟩
  · intro h
    rw [acquireLockLoop_eq, h]
  · intro h ht
    rw [acquireLockLoop_eq, h]
    simp [ht]
  · intro h ht
    rw [acquireLockLoop_eq, h]
    simp [ht]
  · intro h
    exact acquireLockLoop_held_aux lockAt timeoutMs holder h (timeoutMs + 1) 0 (by omega)

/-- Witness for C6 at concrete inputs: a free lock is acquired at once, and a
lock held throughout by a recorded holder makes acquisition time out reporting
that holder. -/
theorem ccenv_C6_witness :
    acquireLockLoop (fun _ => none) 300 0 = LockResult.acquired 0 ∧
    acquireLock (fun _ => some "pid 42 on host-a") 300 =
      LockResult.timedOut "pid 42 on host-a" ∧
    releaseLock none = (none, true) := by
  have h1 := (ccenv_C6 (fun _ => none) 300 0 "x" "x").1 rfl
  have h4 := (ccenv_C6 (fun _ => some "pid 42 on host-a") 300 0 "x"
    "pid 42 on host-a").2.2.2.1 (fun _ => rfl)
  exact ⟨h1, h4, rfl⟩

/-- C7: createEnv fails when the slot already exists; otherwise it writes
exactly the empty bundle the spec describes (empty patches plus a metadata
record), and the `--empty` code path and the default ("inherit HEAD") code path
produce identical bundle contents. -/
theorem ccenv_C7 (name : String) (empty : Bool) (now : Nat) (s : Sys) :
    (hasSlot s.slots name = true →
      createEnv name empty now s = (some "Environment already exists", s)) ∧
    (hasSlot s.slots name = false →
      createEnv name empty now s =
        (none,
         { s with
            slots := putSlot s.slots name (specEmptyBundle s.tree.head s.tree.branch now) })) ∧
    createEnv name true now s = createEnv name false now s := by
  refine ⟨?_, ?_, ?_⟩
  · intro h
    simp [createEnv, h]
  · intro h
    cases empty <;> simp [createEnv, h, specEmptyBundle]
  · cases h : hasSlot s.slots name <;> simp [createEnv, h]

/-- Witness for C7 at concrete inputs. -/
theorem ccenv_C7_witness :
    (createEnv "env-a" true 7
        { tree := { head := "h0", branch := "main",
                    index := fun _ => none, work := fun _ => none,
                    untr := fun _ => none },
          slots := [], stateRaw := none } =
      (none, { tree := { head := "h0", branch := "main",
                         index := fun _ => none, work := fun _ => none,
                         untr := fun _ => none },
               slots := putSlot [] "env-a" (specEmptyBundle "h0" "main" 7),
               stateRaw := none })) ∧
    (createEnv "env-a" true 7
        { tree := { head := "h0", branch := "main",
                    index := fun _ => none, work := fun _ => none,
                    untr := fun _ => none },
          slots := [], stateRaw := none } =
      createEnv "env-a" false 7
        { tree := { head := "h0", branch := "main",
                    index := fun _ => none, work := fun _ => none,
                    untr := fun _ => none },
          slots := [], stateRaw := none }) := by
  constructor
  · exact (ccenv_C7 "env-a" true 7 _).2.1 rfl
  · exact (ccenv_C7 "env-a" true 7 _).2.2

/-- C10: deleteEnv fails exactly when the slot is missing or the slot is the
recorded active environment; the reserved host slot is not protected — it can
be deleted whenever it is not the current occupant — even though listEnvs
always hides it. -/
theorem ccenv_C10 (name : String) (s : Sys) :
    ((deleteEnv name s).1 ≠ none ↔
      (hasSlot s.slots name = false ∨
        (∃ st, readState s.stateRaw = some st ∧ st.activeEnv = name))) ∧
    (hasSlot s.slots DEFAULT_HOST_ENV = true →
      (∀ st, readState s.stateRaw = some st → st.activeEnv ≠ DEFAULT_HOST_ENV) →
      (deleteEnv DEFAULT_HOST_ENV s).1 = none) ∧
    DEFAULT_HOST_ENV ∉ listEnvs s := by
  refine ⟨?_, ?_, ?_⟩
  · by_cases h : hasSlot s.slots name = true
    · cases hst : readState s.stateRaw with
      | none =>
        simp [deleteEnv, h, hst]
      | some st =>
        by_cases ha : st.activeEnv = name
        · simp [deleteEnv, h, hst, ha]
        · simp [deleteEnv, h, hst, ha]
    · have h0 : hasSlot s.slots name = false := by
        cases hv : hasSlot s.slots name
        · rfl
        · exact absurd hv h
      simp [deleteEnv, h0]
  · intro h hact
    cases hst : readState s.stateRaw with
    | none => simp [deleteEnv, h, hst]
    | some st => simp [deleteEnv, h, hst, hact st hst]
  · intro hmem
    have := (List.mem_filter.mp hmem).2
    simp at this

/-- Witness for C10 at concrete inputs: with slots `default` and `env-a` and
`env-a` occupying the tree, deleting `default` succeeds, deleting `env-a`
fails, and the listing hides `default`. -/
theorem ccenv_C10_witness :
    ((deleteEnv "env-a"
        { tree := { head := "h0", branch := "main",
                    index := fun _ => none, work := fun _ => none,
                    untr := fun _ => none },
          slots := [("default", specEmptyBundle "h0" "main" 0),
                    ("env-a", specEmptyBundle "h0" "main" 0)],
          stateRaw := some (StateContent.valid
            { activeEnv := "env-a", hostEnv := "default", timestamp := 0 }) }).1 ≠
      none) ∧
    ((deleteEnv "default"
        { tree := { head := "h0", branch := "main",
                    index := fun _ => none, work := fun _ => none,
                    untr := fun _ => none },
          slots := [("default", specEmptyBundle "h0" "main" 0),
                    ("env-a", specEmptyBundle "h0" "main" 0)],
          stateRaw := some (StateContent.valid
            { activeEnv := "env-a", hostEnv := "default", timestamp := 0 }) }).1 =
      none) ∧
    "default" ∉ listEnvs
        { tree := { head := "h0", branch := "main",
                    index := fun _ => none, work := fun _ => none,
                    untr := fun _ => none },
          slots := [("default", specEmptyBundle "h0" "main" 0),
                    ("env-a", specEmptyBundle "h0" "main" 0)],
          stateRaw := some (StateContent.valid
            { activeEnv := "env-a", hostEnv := "default", timestamp := 0 }) } := by
  refine ⟨?_, ?_, ?_⟩
  · exact (ccenv_C10 "env-a" _).1.mpr (Or.inr ⟨_, rfl, rfl⟩)
  · exact (ccenv_C10 "default" _).2.1 rfl (by intro st hst; cases hst; decide)
  · exact (ccenv_C10 "default" _).2.2

end Ccenv

namespace Ccenv

/-- A trivial concrete tree for witnesses. -/
def tW : Tree :=
  { head := "h0", branch := "main"
    index := fun _ => none, work := fun _ => none, untr := fun _ => none }

/-- A trivial concrete repository for witnesses: one branch `main` at `h0`. -/
def repoW : Repo :=
  { branches := [("main", "h0")], commits := ["h0"]
    commitFiles := fun _ => fun _ => none }

/-- C4: entering the name that already occupies the tree is a no-op fast path —
no error, reported as "no actual swap", the on-disk state (tree, slots,
occupancy record) returned unchanged, and an empty effect trace: zero
snapshots, resets, restores, and no sleep, so the poll interval is never
waited. -/
theorem ccenv_C4 (repo : Repo) (ps : List String) (now : Nat) (name : String)
    (s : Sys) (st : StateFile)
    (hslot : hasSlot s.slots name = true)
    (hst : readState s.stateRaw = some st)
    (hname : st.activeEnv = name) :
    enterEnv repo ps now name s =
      { err := none, swapped := false, sys := s, effs := [] } := by
  obtain ⟨b, hb⟩ := Option.isSome_iff_exists.mp (by simpa [hasSlot] using hslot)
  simp [enterEnv, hb, hst, hname]

/-- Witness for C4 at a concrete occupied state. -/
theorem ccenv_C4_witness :
    enterEnv repoW [] 0 "env-a"
      { tree := tW, slots := [("env-a", specEmptyBundle "h0" "main" 0)]
        stateRaw := some (StateContent.valid
          { activeEnv := "env-a", hostEnv := "default", timestamp := 0 }) } =
      { err := none, swapped := false
        sys := { tree := tW, slots := [("env-a", specEmptyBundle "h0" "main" 0)]
                 stateRaw := some (StateContent.valid
                   { activeEnv := "env-a", hostEnv := "default", timestamp := 0 }) }
        effs := [] } :=
  ccenv_C4 repoW [] 0 "env-a" _ _ rfl rfl rfl

/-- C9: a missing state file and state-file contents that fail to parse both
make readState return null; enterEnv then treats the tree as unoccupied and
proceeds with the full swap (host dump then reset, before restore and state
write), and exitEnv succeeds as a strict no-op — corrupted occupancy records
are never surfaced as errors. -/
theorem ccenv_C9 (repo : Repo) (ps : List String) (now : Nat) (name : String)
    (claimed : Option String) (force : Bool) (s : Sys)
    (hraw : s.stateRaw = none ∨ s.stateRaw = some StateContent.invalid) :
    readState s.stateRaw = none ∧
    (hasSlot s.slots name = true →
      (enterEnv repo ps now name s).effs.take 2 =
        [Eff.dumpEff DEFAULT_HOST_ENV, Eff.cleanEff]) ∧
    exitEnv repo ps now claimed force s = { err := none, sys := s, effs := [] } := by
  have hrd : readState s.stateRaw = none := by
    rcases hraw with h | h <;> rw [h] <;> rfl
  refine ⟨hrd, ?_, ?_⟩
  · intro hslot
    obtain ⟨b, hb⟩ := Option.isSome_iff_exists.mp (by simpa [hasSlot] using hslot)
    rcases hres : restoreEnv repo false
        (if name = DEFAULT_HOST_ENV then dumpEnv repo ps now s.tree else b)
        (cleanWorkspace repo s.tree) with ⟨err, t2, effs2⟩
    cases err <;> simp [enterEnv, hb, hrd, hres]
  · simp [exitEnv, hrd]

/-- Witness for C9 at a concrete corrupt state file. -/
theorem ccenv_C9_witness :
    readState (some StateContent.invalid) = none ∧
    (enterEnv repoW [] 0 "env-a"
        { tree := tW, slots := [("env-a", specEmptyBundle "h0" "main" 0)]
          stateRaw := some StateContent.invalid }).effs.take 2 =
      [Eff.dumpEff DEFAULT_HOST_ENV, Eff.cleanEff] ∧
    exitEnv repoW [] 0 none false
        { tree := tW, slots := [("env-a", specEmptyBundle "h0" "main" 0)]
          stateRaw := some StateContent.invalid } =
      { err := none
        sys := { tree := tW, slots := [("env-a", specEmptyBundle "h0" "main" 0)]
                 stateRaw := some StateContent.invalid }
        effs := [] } := by
  have h := ccenv_C9 repoW [] 0 "env-a" none false
    { tree := tW, slots := [("env-a", specEmptyBundle "h0" "main" 0)]
      stateRaw := some StateContent.invalid } (Or.inr rfl)
  exact ⟨h.1, h.2.1 rfl, h.2.2⟩

/-- C3 (amended): while the tree is occupied, an exit whose claimed ambient
identity differs from the active environment and lacks force fails with no
mutation at all — unchanged state, empty effect trace.  An exit with force
skips the identity check and always proceeds into the destructive swap
(snapshot of the active slot, then reset); it completes successfully — and
removes the occupancy record — whenever the recorded host snapshot exists and
its bundle restores cleanly, but not unconditionally: a missing host snapshot
still fails. -/
theorem ccenv_C3_amended (repo : Repo) (ps : List String) (now : Nat)
    (claimed : Option String) (s : Sys) (st : StateFile)
    (hst : readState s.stateRaw = some st) :
    (claimed ≠ some st.activeEnv →
      exitEnv repo ps now claimed false s =
        { err := some "Cannot exit environment", sys := s, effs := [] }) ∧
    ((exitEnv repo ps now claimed true s).effs.take 2 =
      [Eff.dumpEff st.activeEnv, Eff.cleanEff]) ∧
    (∀ hostB,
      getSlot (putSlot s.slots st.activeEnv (dumpEnv repo ps now s.tree))
          st.hostEnv = some hostB →
      (restoreEnv repo false hostB (cleanWorkspace repo s.tree)).1 = none →
      (exitEnv repo ps now claimed true s).err = none ∧
      (exitEnv repo ps now claimed true s).sys.stateRaw = none) := by
  refine ⟨?_, ?_, ?_⟩
  · intro hne
    simp [exitEnv, hst, hne]
  · rw [exitEnv, hst]
    simp only [show ¬(true = false ∧ claimed ≠ some st.activeEnv) by simp,
      if_neg, reduceIte]
    rw [exitSwap]
    cases hhost : getSlot (putSlot s.slots st.activeEnv (dumpEnv repo ps now s.tree))
        st.hostEnv with
    | none => simp
    | some hostB =>
      rcases hres : restoreEnv repo false hostB (cleanWorkspace repo s.tree)
        with ⟨err, t2, effs2⟩
      cases err <;> simp [hres]
  · intro hostB hhost hok
    rw [exitEnv, hst]
    simp only [show ¬(true = false ∧ claimed ≠ some st.activeEnv) by simp,
      if_neg, reduceIte]
    rw [exitSwap]
    rcases hres : restoreEnv repo false hostB (cleanWorkspace repo s.tree)
      with ⟨err, t2, effs2⟩
    rw [hres] at hok
    simp only at hok
    subst hok
    simp [hhost, hres]

/-- Counterexample for C3 as stated: a reachable occupied state whose recorded
host snapshot has been deleted (deleteEnv does not protect the reserved slot):
exit with force fails rather than succeeding unconditionally. -/
theorem ccenv_C3_counterexample :
    readState (some (StateContent.valid
        { activeEnv := "env-a", hostEnv := "default", timestamp := 0 })) =
      some { activeEnv := "env-a", hostEnv := "default", timestamp := 0 } ∧
    (exitEnv repoW [] 0 (some "env-a") true
        { tree := tW, slots := [("env-a", specEmptyBundle "h0" "main" 0)]
          stateRaw := some (StateContent.valid
            { activeEnv := "env-a", hostEnv := "default", timestamp := 0 }) }).err =
      some "Host snapshot not found" := by
  constructor
  · rfl
  · rfl

/-- Witness for C3 (amended) at a concrete occupied state with both slots
present: the mismatched exit fails without mutation, and the forced exit
succeeds and frees the tree. -/
theorem ccenv_C3_witness :
    (exitEnv repoW [] 0 (some "other") false
        { tree := tW
          slots := [("env-a", specEmptyBundle "h0" "main" 0),
                    ("default", specEmptyBundle "h0" "main" 0)]
          stateRaw := some (StateContent.valid
            { activeEnv := "env-a", hostEnv := "default", timestamp := 0 }) } =
      { err := some "Cannot exit environment"
        sys := { tree := tW
                 slots := [("env-a", specEmptyBundle "h0" "main" 0),
                           ("default", specEmptyBundle "h0" "main" 0)]
                 stateRaw := some (StateContent.valid
                   { activeEnv := "env-a", hostEnv := "default", timestamp := 0 }) }
        effs := [] }) ∧
    (exitEnv repoW [] 0 (some "other") true
        { tree := tW
          slots := [("env-a", specEmptyBundle "h0" "main" 0),
                    ("default", specEmptyBundle "h0" "main" 0)]
          stateRaw := some (StateContent.valid
            { activeEnv := "env-a", hostEnv := "default", timestamp := 0 }) }).err =
      none := by
  have h := ccenv_C3_amended repoW [] 0 (some "other")
    { tree := tW
      slots := [("env-a", specEmptyBundle "h0" "main" 0),
                ("default", specEmptyBundle "h0" "main" 0)]
      stateRaw := some (StateContent.valid
        { activeEnv := "env-a", hostEnv := "default", timestamp := 0 }) }
    { activeEnv := "env-a", hostEnv := "default", timestamp := 0 } rfl
  refine ⟨h.1 (by simp), ?_⟩
  exact (h.2.2 (specEmptyBundle "h0" "main" 0) rfl rfl).1

end Ccenv

namespace Ccenv

/-- C5 (amended): in the `run` wrapper, after the child terminates the cleanup
phase calls exit(force) exactly when enter reported an actual swap; on the
no-op fast path (the name already occupied the tree) no exit is performed and
the final status is still the child's.  When a swap happened and the forced
exit succeeds, the final status equals the child's exit status; if enter threw,
the wrapper fails without appending a spawn step — the child is never run;
interruption uses the conventional signal-based codes 130 and 143. -/
theorem ccenv_C5_amended (repo : Repo) (ps : List String) (now : Nat)
    (name : String) (claimed : Option String) (childCode : Nat) (s : Sys) :
    (∀ e, (enterEnv repo ps now name s).err = some e →
      runMain repo ps now name claimed childCode s =
        { err := some e, status := 1, sys := (enterEnv repo ps now name s).sys
          effs := (enterEnv repo ps now name s).effs }) ∧
    ((enterEnv repo ps now name s).err = none →
      (enterEnv repo ps now name s).swapped = true →
      Eff.exitForceEff ∈ (runMain repo ps now name claimed childCode s).effs ∧
      ((exitEnv repo ps now claimed true (enterEnv repo ps now name s).sys).err = none →
        (runMain repo ps now name claimed childCode s).status = childCode ∧
        (runMain repo ps now name claimed childCode s).err = none)) ∧
    ((enterEnv repo ps now name s).err = none →
      (enterEnv repo ps now name s).swapped = false →
      runMain repo ps now name claimed childCode s =
        { err := none, status := childCode, sys := (enterEnv repo ps now name s).sys
          effs := (enterEnv repo ps now name s).effs ++ [Eff.spawnEff] }) ∧
    signalCode Sig.sigint = 128 + 2 ∧ signalCode Sig.sigterm = 128 + 15 := by
  refine ⟨?_, ?_, ?_, rfl, rfl⟩
  · intro e he
    simp [runMain, he]
  · intro he hsw
    cases hex : (exitEnv repo ps now claimed true (enterEnv repo ps now name s).sys).err with
    | some e =>
      refine ⟨?_, ?_⟩
      · simp [runMain, he, hsw, hex]
      · intro hxe
        cases hxe
    | none =>
      refine ⟨?_, ?_⟩
      · simp [runMain, he, hsw, hex]
      · intro _
        constructor <;> simp [runMain, he, hsw, hex]
  · intro he hsw
    simp [runMain, he, hsw]

/-- Counterexample for C5 as stated: `run` invoked while the requested name
already occupies the tree — enter is the no-op fast path, the child runs and
terminates, yet the cleanup phase performs no exit(force) at all. -/
theorem ccenv_C5_counterexample :
    (enterEnv repoW [] 0 "env-a"
        { tree := tW, slots := [("env-a", specEmptyBundle "h0" "main" 0)]
          stateRaw := some (StateContent.valid
            { activeEnv := "env-a", hostEnv := "default", timestamp := 0 }) }).err =
      none ∧
    Eff.spawnEff ∈ (runMain repoW [] 0 "env-a" (some "env-a") 0
        { tree := tW, slots := [("env-a", specEmptyBundle "h0" "main" 0)]
          stateRaw := some (StateContent.valid
            { activeEnv := "env-a", hostEnv := "default", timestamp := 0 }) }).effs ∧
    Eff.exitForceEff ∉ (runMain repoW [] 0 "env-a" (some "env-a") 0
        { tree := tW, slots := [("env-a", specEmptyBundle "h0" "main" 0)]
          stateRaw := some (StateContent.valid
            { activeEnv := "env-a", hostEnv := "default", timestamp := 0 }) }).effs := by
  refine ⟨rfl, ?_, ?_⟩
  · have : (runMain repoW [] 0 "env-a" (some "env-a") 0
        { tree := tW, slots := [("env-a", specEmptyBundle "h0" "main" 0)]
          stateRaw := some (StateContent.valid
            { activeEnv := "env-a", hostEnv := "default", timestamp := 0 }) }).effs =
        [Eff.spawnEff] := rfl
    rw [this]
    simp
  · have : (runMain repoW [] 0 "env-a" (some "env-a") 0
        { tree := tW, slots := [("env-a", specEmptyBundle "h0" "main" 0)]
          stateRaw := some (StateContent.valid
            { activeEnv := "env-a", hostEnv := "default", timestamp := 0 }) }).effs =
        [Eff.spawnEff] := rfl
    rw [this]
    simp

/-- Witness for C5 (amended): a run from a free tree swaps in, spawns the
child, force-exits in cleanup, and finishes with the child's status. -/
theorem ccenv_C5_witness :
    Eff.exitForceEff ∈ (runMain repoW [] 0 "env-a" none 7
        { tree := tW
          slots := [("env-a", specEmptyBundle "h0" "main" 0)]
          stateRaw := none }).effs ∧
    (runMain repoW [] 0 "env-a" none 7
        { tree := tW
          slots := [("env-a", specEmptyBundle "h0" "main" 0)]
          stateRaw := none }).status = 7 := by
  have h := (ccenv_C5_amended repoW [] 0 "env-a" none 7
    { tree := tW
      slots := [("env-a", specEmptyBundle "h0" "main" 0)]
      stateRaw := none }).2.1 rfl rfl
  exact ⟨h.1, (h.2 rfl).1⟩

end Ccenv

namespace Ccenv

theorem restoreUntarStep_effs (b : Bundle) (t1 : Tree) :
    (restoreUntarStep b t1).2 =
      if b.untrackedArchive.isSome then [Eff.untarEff] else [] := by
  cases h : b.untrackedArchive <;> simp [restoreUntarStep, h]

theorem applyStagedPart_effs (b : Bundle) (t : Tree)
    (h : (applyStagedPart b t).1 = none) :
    (applyStagedPart b t).2.2 =
      if b.staged.isEmpty then []
      else [Eff.applyStagedIndexEff, Eff.applyStagedTreeEff] := by
  by_cases hs : b.staged.isEmpty
  · rw [applyStagedPart]
    simp [hs]
  · rw [Bool.not_eq_true] at hs
    rw [applyStagedPart] at h ⊢
    cases h1 : applyPatch b.staged t.index with
    | none => simp [hs, h1] at h
    | some idx =>
      cases h2 : applyPatch b.staged t.work with
      | none => simp [hs, h1, h2] at h
      | some wk => simp [hs, h1, h2]

theorem applyUnstagedPart_effs (b : Bundle) (t : Tree)
    (h : (applyUnstagedPart b t).1 = none) :
    (applyUnstagedPart b t).2.2 =
      if b.unstaged.isEmpty then [] else [Eff.applyUnstagedTreeEff] := by
  by_cases hu : b.unstaged.isEmpty
  · rw [applyUnstagedPart]
    simp [hu]
  · rw [Bool.not_eq_true] at hu
    rw [applyUnstagedPart] at h ⊢
    cases h1 : applyPatch b.unstaged t.work with
    | none => simp [hu, h1] at h
    | some wk => simp [hu, h1]

/-- C8: restoreEnv performs its steps in order — the optional reset first, then
the VCS-position step (checkout of the recorded branch with fallback to the
recorded commit, every failure non-fatal), then extraction of the untracked
archive if present, then the staged patch applied to index and tree if
non-empty, then the unstaged patch applied to the tree if non-empty.  The
successful trace decomposes in exactly that order whether or not the VCS step
succeeded, and with trivially applying patches restoration succeeds no matter
how the checkout fared — the VCS-position step alone can never make restoreEnv
fail. -/
theorem ccenv_C8 (repo : Repo) (cl : Bool) (b : Bundle) (t : Tree) :
    ((restoreEnv repo cl b t).1 = none →
      (restoreEnv repo cl b t).2.2 =
        (if cl then [Eff.cleanEff] else [])
          ++ (restoreVcsStep repo b (if cl then cleanWorkspace repo t else t)).2
          ++ (if b.untrackedArchive.isSome then [Eff.untarEff] else [])
          ++ (if b.staged.isEmpty then []
              else [Eff.applyStagedIndexEff, Eff.applyStagedTreeEff])
          ++ (if b.unstaged.isEmpty then [] else [Eff.applyUnstagedTreeEff])) ∧
    (b.staged = [] → b.unstaged = [] → (restoreEnv repo cl b t).1 = none) := by
  constructor
  · intro h
    rcases hsp : applyStagedPart b
        (restoreUntarStep b
          (restoreVcsStep repo b (if cl then cleanWorkspace repo t else t)).1).1
      with ⟨se, t3, e3⟩
    cases se with
    | some e =>
      rw [restoreEnv] at h
      simp only [hsp] at h
      cases h
    | none =>
      rcases hup : applyUnstagedPart b t3 with ⟨ue, t4, e4⟩
      rw [restoreEnv] at h ⊢
      simp only [hsp, hup] at h ⊢
      cases ue with
      | some e => cases h
      | none =>
        have he3 : e3 = if b.staged.isEmpty then []
            else [Eff.applyStagedIndexEff, Eff.applyStagedTreeEff] := by
          have hp := applyStagedPart_effs b
            (restoreUntarStep b
              (restoreVcsStep repo b (if cl then cleanWorkspace repo t else t)).1).1
            (by rw [hsp])
          rw [hsp] at hp
          exact hp
        have he4 : e4 = if b.unstaged.isEmpty then []
            else [Eff.applyUnstagedTreeEff] := by
          have hp := applyUnstagedPart_effs b t3 (by rw [hup])
          rw [hup] at hp
          exact hp
        rw [he3, he4, restoreUntarStep_effs]
  · intro hs hu
    have hsp : applyStagedPart b
        (restoreUntarStep b
          (restoreVcsStep repo b (if cl then cleanWorkspace repo t else t)).1).1 =
        (none,
         (restoreUntarStep b
           (restoreVcsStep repo b (if cl then cleanWorkspace repo t else t)).1).1,
         []) := by
      rw [applyStagedPart]
      simp [hs]
    rw [restoreEnv]
    simp only [hsp]
    rw [applyUnstagedPart]
    simp [hu]

/-- Witness for C8 at a concrete bundle whose recorded branch and commit both
no longer exist: restoration still succeeds, and its trace shows the reset,
the failed checkout attempts, and then the untracked-archive extraction. -/
theorem ccenv_C8_witness :
    (restoreEnv repoW true
        { staged := [], unstaged := []
          untrackedArchive := some (fun p => if p = "u.txt" then some "u" else none)
          info := some { headHash := "gone", branch := "missing", timestamp := 0 } }
        tW).1 = none ∧
    (restoreEnv repoW true
        { staged := [], unstaged := []
          untrackedArchive := some (fun p => if p = "u.txt" then some "u" else none)
          info := some { headHash := "gone", branch := "missing", timestamp := 0 } }
        tW).2.2 =
      [Eff.cleanEff, Eff.checkoutBranchEff "missing" false,
       Eff.checkoutHashEff "gone" false, Eff.untarEff] := by
  have h := ccenv_C8 repoW true
    { staged := [], unstaged := []
      untrackedArchive := some (fun p => if p = "u.txt" then some "u" else none)
      info := some { headHash := "gone", branch := "missing", timestamp := 0 } }
    tW
  have h1 := h.2 rfl rfl
  refine ⟨h1, ?_⟩
  have h2 := h.1 h1
  rw [h2]
  rfl

end Ccenv

namespace Ccenv

theorem tree_ext {a b : Tree} (h1 : a.head = b.head) (h2 : a.branch = b.branch)
    (h3 : a.index = b.index) (h4 : a.work = b.work) (h5 : a.untr = b.untr) :
    a = b := by
  cases a
  cases b
  dsimp at h1 h2 h3 h4 h5
  subst h1
  subst h2
  subst h3
  subst h4
  subst h5
  rfl

/-- Applying a diff to its own base reproduces the target exactly, when base
and target have no differences outside the enumerated path universe. -/
theorem applyPatch_diff_exact (ps : List String) (a c : FileMap) (hnd : ps.Nodup)
    (hoff : ∀ p, p ∉ ps → a p = c p) :
    applyPatch (diffFiles ps a c) a = some c := by
  obtain ⟨r, hr, hin, hout⟩ := applyPatch_diffFiles ps a c hnd
  have hrc : r = c := funext fun p => by
    by_cases hp : p ∈ ps
    · exact hin p hp
    · rw [hout p hp]
      exact hoff p hp
  rw [hrc] at hr
  exact hr

/-- An empty diff over the path universe plus agreement outside it means the
two file states are equal. -/
theorem diffFiles_nil_exact (ps : List String) (a c : FileMap)
    (hnil : diffFiles ps a c = []) (hoff : ∀ p, p ∉ ps → a p = c p) : a = c :=
  funext fun p => by
    by_cases hp : p ∈ ps
    · exact (diffFiles_eq_nil_iff ps a c).mp hnil p hp
    · exact hoff p hp

/-- The staged step of the round trip: a bundle whose staged patch is the diff
from `a` to `c`, applied onto a tree whose index and working copy both sit at
`a`, rewrites both to `c`. -/
theorem applyStagedPart_roundtrip (B : Bundle) (t2 : Tree) (ps : List String)
    (a c : FileMap) (hnd : ps.Nodup)
    (hB : B.staged = diffFiles ps a c)
    (hidx : t2.index = a) (hwork : t2.work = a)
    (hoff : ∀ p, p ∉ ps → a p = c p) :
    applyStagedPart B t2 =
      (none, { t2 with index := c, work := c },
       if B.staged.isEmpty then []
       else [Eff.applyStagedIndexEff, Eff.applyStagedTreeEff]) := by
  by_cases hs : B.staged.isEmpty
  · have hnil : diffFiles ps a c = [] := by
      rw [← hB]
      exact List.isEmpty_iff.mp hs
    have hac : a = c := diffFiles_nil_exact ps a c hnil hoff
    have ht : ({ t2 with index := c, work := c } : Tree) = t2 :=
      tree_ext rfl rfl (by rw [hidx, hac]) (by rw [hwork, hac]) rfl
    rw [applyStagedPart]
    simp [hs, ht]
  · have h1 : applyPatch B.staged t2.index = some c := by
      rw [hidx, hB]
      exact applyPatch_diff_exact ps a c hnd hoff
    have h2 : applyPatch B.staged t2.work = some c := by
      rw [hwork, hB]
      exact applyPatch_diff_exact ps a c hnd hoff
    rw [applyStagedPart]
    simp [hs, h1, h2]

/-- The unstaged step of the round trip: a bundle whose unstaged patch is the
diff from `a` to `c`, applied onto a tree whose working copy sits at `a`,
rewrites the working copy to `c`. -/
theorem applyUnstagedPart_roundtrip (B : Bundle) (t3 : Tree) (ps : List String)
    (a c : FileMap) (hnd : ps.Nodup)
    (hB : B.unstaged = diffFiles ps a c)
    (hwork : t3.work = a)
    (hoff : ∀ p, p ∉ ps → a p = c p) :
    applyUnstagedPart B t3 =
      (none, { t3 with work := c },
       if B.unstaged.isEmpty then [] else [Eff.applyUnstagedTreeEff]) := by
  by_cases hu : B.unstaged.isEmpty
  · have hnil : diffFiles ps a c = [] := by
      rw [← hB]
      exact List.isEmpty_iff.mp hu
    have hac : a = c := diffFiles_nil_exact ps a c hnil hoff
    have ht : ({ t3 with work := c } : Tree) = t3 :=
      tree_ext rfl rfl rfl (by rw [hwork, hac]) rfl
    rw [applyUnstagedPart]
    simp [hu, ht]
  · have h1 : applyPatch B.unstaged t3.work = some c := by
      rw [hwork, hB]
      exact applyPatch_diff_exact ps a c hnd hoff
    rw [applyUnstagedPart]
    simp [hu, h1]

end Ccenv

namespace Ccenv

/-- The untracked step of the round trip: restoring the archive dumped from
`t` onto a tree whose untracked set was cleared by the reset (only control-
directory entries survive) reproduces the untracked files of `t` exactly,
given that `t` kept no untracked files inside the control directory. -/
theorem restoreUntar_roundtrip (repo : Repo) (ps : List String) (now : Nat)
    (t u : Tree)
    (hu : u.untr = fun p => if isCcenvPath p then t.untr p else none)
    (hsuppU : ∀ p, p ∉ ps → t.untr p = none) :
    restoreUntarStep (dumpEnv repo ps now t) u =
      ({ u with untr := t.untr },
       if (dumpEnv repo ps now t).untrackedArchive.isSome then [Eff.untarEff]
       else []) := by
  have hkey : ∀ p,
      p ∉ (ps.filter fun q => (t.untr q).isSome).filter (fun q => !(isCcenvPath q)) →
      isCcenvPath p = false → t.untr p = none := by
    intro p hpf hpc
    by_cases hps : p ∈ ps
    · by_cases hsome : (t.untr p).isSome
      · exact absurd (List.mem_filter.mpr
          ⟨List.mem_filter.mpr ⟨hps, hsome⟩, by rw [hpc]; rfl⟩) hpf
      · exact Option.not_isSome_iff_eq_none.mp hsome
    · exact hsuppU p hps
  by_cases he :
      ((ps.filter fun q => (t.untr q).isSome).filter
        (fun q => !(isCcenvPath q))).isEmpty
  · have harch : (dumpEnv repo ps now t).untrackedArchive = none := by
      rw [dumpEnv]
      simp only [he, if_true]
    have huntr : t.untr = u.untr := funext fun p => by
      simp only [hu]
      by_cases hpc : isCcenvPath p
      · rw [if_pos hpc]
      · rw [if_neg hpc]
        apply hkey p
        · rw [List.isEmpty_iff.mp he]
          exact List.not_mem_nil p
        · simpa using hpc
    have ht : ({ u with untr := t.untr } : Tree) = u := by
      refine tree_ext rfl rfl rfl rfl ?_
      exact huntr
    rw [restoreUntarStep, harch, ht]
    rfl
  · have harch : (dumpEnv repo ps now t).untrackedArchive =
        some (fun p =>
          if p ∈ (ps.filter fun q => (t.untr q).isSome).filter
              (fun q => !(isCcenvPath q)) then t.untr p else none) := by
      rw [dumpEnv]
      dsimp only
      rw [if_neg he]
    have hext : extractArchive
        (fun p =>
          if p ∈ (ps.filter fun q => (t.untr q).isSome).filter
              (fun q => !(isCcenvPath q)) then t.untr p else none) u =
        { u with untr := t.untr } := by
      refine tree_ext rfl rfl rfl rfl ?_
      funext p
      show (match (if p ∈ (ps.filter fun q => (t.untr q).isSome).filter
          (fun q => !(isCcenvPath q)) then t.untr p else none) with
        | some c => some c
        | none => u.untr p) = t.untr p
      by_cases hpf : p ∈ (ps.filter fun q => (t.untr q).isSome).filter
          (fun q => !(isCcenvPath q))
      · rw [if_pos hpf]
        have hsome : (t.untr p).isSome :=
          (List.mem_filter.mp (List.mem_filter.mp hpf).1).2
        obtain ⟨v, hv⟩ := Option.isSome_iff_exists.mp hsome
        rw [hv]
      · rw [if_neg hpf]
        simp only [hu]
        by_cases hpc : isCcenvPath p
        · rw [if_pos hpc]
        · rw [if_neg hpc]
          exact (hkey p hpf (by simpa using hpc)).symm
    rw [restoreUntarStep, harch]
    dsimp only
    rw [hext]
    rfl

/-- The VCS-position step of the round trip: right after a snapshot of `t` and
a reset, the recorded branch (or, when detached, the recorded commit) still
resolves to the position the tree is already at, so the step is the identity
on the tree. -/
theorem restoreVcs_roundtrip (repo : Repo) (t : Tree) (B : Bundle) (now : Nat)
    (hB : B.info = some { headHash := t.head, branch := t.branch, timestamp := now })
    (hbr : (t.branch ≠ "" ∧ t.branch ≠ "HEAD" ∧
              repo.branches.lookup t.branch = some t.head) ∨
           (t.branch = "HEAD" ∧ t.head ≠ "" ∧
              repo.branches.lookup t.head = none ∧ t.head ∈ repo.commits)) :
    ∃ ve, restoreVcsStep repo B (cleanWorkspace repo t) =
      (cleanWorkspace repo t, ve) := by
  rw [restoreVcsStep, hB]
  dsimp only
  rcases hbr with ⟨h1, h2, h3⟩ | ⟨h1, h2, h3, h4⟩
  · refine ⟨[Eff.checkoutBranchEff t.branch true], ?_⟩
    have hco : gitCheckout repo (cleanWorkspace repo t) t.branch =
        some (cleanWorkspace repo t) := by
      rw [gitCheckout.eq_def, h3]
      rfl
    rw [restoreGitPos.eq_def]
    dsimp only
    rw [if_pos ⟨h1, h2⟩, hco]
  · refine ⟨[Eff.checkoutHashEff t.head true], ?_⟩
    have hco : gitCheckout repo (cleanWorkspace repo t) t.head =
        some (cleanWorkspace repo t) := by
      rw [gitCheckout.eq_def, h3]
      dsimp only
      rw [if_pos h4]
      congr 1
      exact tree_ext rfl h1.symm rfl rfl rfl
    rw [restoreGitPos.eq_def]
    dsimp only
    rw [if_neg (by simp [h1]), if_pos h2, hco]

end Ccenv

namespace Ccenv

/-- Definitional shape of `restoreEnv` when the reset step is skipped. -/
theorem restoreEnv_false (repo : Repo) (b : Bundle) (t : Tree) :
    restoreEnv repo false b t =
      (match applyStagedPart b (restoreUntarStep b (restoreVcsStep repo b t).1).1 with
       | (some e, t3, e3) =>
         (some e, t3,
          ((restoreVcsStep repo b t).2
            ++ (restoreUntarStep b (restoreVcsStep repo b t).1).2) ++ e3)
       | (none, t3, e3) =>
         match applyUnstagedPart b t3 with
         | (e4, t4, effs4) =>
           (e4, t4,
            (((restoreVcsStep repo b t).2
               ++ (restoreUntarStep b (restoreVcsStep repo b t).1).2) ++ e3)
              ++ effs4)) := rfl

/-- C1: the round trip.  Snapshot an arbitrary working-tree state (any mix of
staged changes, unstaged changes and untracked files outside the control
directory) into a slot, reset the workspace, and restore that same slot: the
resulting tree equals the original tree exactly — same HEAD and branch, and
bit-for-bit identical index, tracked working files, and untracked set — so the
staged diff, unstaged diff and untracked contents recomputed from it are
identical to the originals.  Hypotheses: the path universe enumerates every
file involved, and the recorded branch (or, when detached, the recorded
commit) still resolves to the snapshot's HEAD, as it does when nothing commits
in between. -/
theorem ccenv_C1 (repo : Repo) (ps : List String) (now : Nat) (t : Tree)
    (hnd : ps.Nodup)
    (hsupp : ∀ p, p ∉ ps →
      repo.commitFiles t.head p = none ∧ t.index p = none ∧
      t.work p = none ∧ t.untr p = none)
    (hbr : (t.branch ≠ "" ∧ t.branch ≠ "HEAD" ∧
              repo.branches.lookup t.branch = some t.head) ∨
           (t.branch = "HEAD" ∧ t.head ≠ "" ∧
              repo.branches.lookup t.head = none ∧ t.head ∈ repo.commits)) :
    ∃ effs, restoreEnv repo false (dumpEnv repo ps now t) (cleanWorkspace repo t) =
      (none, t, effs) := by
  have hsuppU : ∀ p, p ∉ ps → t.untr p = none := fun p hp => (hsupp p hp).2.2.2
  have hoffA : ∀ p, p ∉ ps → repo.commitFiles t.head p = t.index p := fun p hp => by
    rw [(hsupp p hp).1, (hsupp p hp).2.1]
  have hoffB : ∀ p, p ∉ ps → t.index p = t.work p := fun p hp => by
    rw [(hsupp p hp).2.1, (hsupp p hp).2.2.1]
  obtain ⟨ve, hvcs⟩ := restoreVcs_roundtrip repo t (dumpEnv repo ps now t) now rfl hbr
  have huntar := restoreUntar_roundtrip repo ps now t (cleanWorkspace repo t) rfl hsuppU
  have hstaged := applyStagedPart_roundtrip (dumpEnv repo ps now t)
    { cleanWorkspace repo t with untr := t.untr } ps
    (repo.commitFiles t.head) t.index hnd rfl rfl rfl hoffA
  have hunstaged := applyUnstagedPart_roundtrip (dumpEnv repo ps now t)
    { { cleanWorkspace repo t with untr := t.untr } with
        index := t.index, work := t.index } ps
    t.index t.work hnd rfl rfl hoffB
  dsimp only at hstaged hunstaged
  apply Exists.intro
  rw [restoreEnv_false, hvcs]
  dsimp only
  rw [huntar]
  dsimp only
  rw [hstaged]
  dsimp only
  rw [hunstaged]
  rfl

end Ccenv

namespace Ccenv

/-- Path universe of the spec's round-trip scenario. -/
def psC : List String := ["file.txt", "staged.txt", "untracked.txt"]

/-- Repository of the scenario: branch `main` at commit `h0`, which tracks
`file.txt` with content `base`. -/
def repoC : Repo :=
  { branches := [("main", "h0")], commits := ["h0"]
    commitFiles := fun h => fun p =>
      if h = "h0" then (if p = "file.txt" then some "base" else none) else none }

/-- The scenario tree: an uncommitted edit to `file.txt`, a staged new
`staged.txt`, and an untracked `untracked.txt`. -/
def tC : Tree :=
  { head := "h0", branch := "main"
    index := fun p =>
      if p = "file.txt" then some "base"
      else if p = "staged.txt" then some "s1" else none
    work := fun p =>
      if p = "file.txt" then some "edited"
      else if p = "staged.txt" then some "s1" else none
    untr := fun p => if p = "untracked.txt" then some "u1" else none }

/-- Witness for C1 at the spec's concrete scenario. -/
theorem ccenv_C1_witness :
    ∃ effs, restoreEnv repoC false (dumpEnv repoC psC 0 tC) (cleanWorkspace repoC tC) =
      (none, tC, effs) := by
  apply ccenv_C1 repoC psC 0 tC
  · decide
  · intro p hp
    simp only [psC, List.mem_cons, List.not_mem_nil, or_false] at hp
    push_neg at hp
    obtain ⟨h1, h2, h3⟩ := hp
    refine ⟨?_, ?_, ?_, ?_⟩ <;> simp [repoC, tC, h1, h2, h3]
  · left
    exact ⟨by decide, by decide, rfl⟩

end Ccenv

namespace Ccenv.Mutex

/-- Initial processes of the C2 trace: process 0 an enter of `x`, process 1
the occupant's exit (claimed identity `y`, no force), process 2 an enter of
`z`; every process at its start. -/
def cxP : Nat → Proc := fun i =>
  if i = 0 then Proc.enterP "x" EnterPC.tryLock
  else if i = 1 then Proc.exitP (some "y") false ExitPC.tryLock
  else if i = 2 then Proc.enterP "z" EnterPC.tryLock
  else Proc.enterP "x" EnterPC.tryLock

/-- The C2 trace, step by step.  `cx0`: tree occupied by `y`, lock free. -/
def cx0 : CSys := initSys cxP (some "y")

/-- Process 0 acquires the lock. -/
def cx1 : CSys := ⟨some 0, cx0.occ, setP cx0.procs 0 (Proc.enterP "x" EnterPC.readSt)⟩

/-- Process 0 reads the state file: busy with `y`. -/
def cx2 : CSys := ⟨cx1.lock, cx1.occ, setP cx1.procs 0 (Proc.enterP "x" EnterPC.waitRel)⟩

/-- Process 0 releases the lock and starts its one-second sleep. -/
def cx3 : CSys := ⟨none, cx2.occ, setP cx2.procs 0 (Proc.enterP "x" EnterPC.sleeping)⟩

/-- Process 1 (the occupant's exit) acquires the lock. -/
def cx4 : CSys := ⟨some 1, cx3.occ, setP cx3.procs 1 (Proc.exitP (some "y") false ExitPC.readSt)⟩

/-- Its claimed identity matches the record; the destructive phase begins. -/
def cx5 : CSys := ⟨cx4.lock, cx4.occ, setP cx4.procs 1 (Proc.exitP (some "y") false ExitPC.dumpE)⟩

def cx6 : CSys := ⟨cx5.lock, cx5.occ, setP cx5.procs 1 (Proc.exitP (some "y") false ExitPC.cleanW)⟩

def cx7 : CSys := ⟨cx6.lock, cx6.occ, setP cx6.procs 1 (Proc.exitP (some "y") false ExitPC.restoreH)⟩

def cx8 : CSys := ⟨cx7.lock, cx7.occ, setP cx7.procs 1 (Proc.exitP (some "y") false ExitPC.rmSt)⟩

/-- Process 1 removes the state record: `y` has exited. -/
def cx9 : CSys := ⟨cx8.lock, none, setP cx8.procs 1 (Proc.exitP (some "y") false ExitPC.unlockOk)⟩

def cx10 : CSys := ⟨none, cx9.occ, setP cx9.procs 1 (Proc.exitP (some "y") false ExitPC.doneOk)⟩

/-- Process 2 acquires the lock. -/
def cx11 : CSys := ⟨some 2, cx10.occ, setP cx10.procs 2 (Proc.enterP "z" EnterPC.readSt)⟩

/-- Process 2 reads no state and begins its destructive phase. -/
def cx12 : CSys := ⟨cx11.lock, cx11.occ, setP cx11.procs 2 (Proc.enterP "z" EnterPC.dumpHost)⟩

/-- Process 0 wakes: the `finally` block runs `releaseLock` a second time,
deleting process 2's lock marker. -/
def cx13 : CSys := ⟨none, cx12.occ, setP cx12.procs 0 (Proc.enterP "x" EnterPC.tryLock)⟩

/-- Process 0 re-acquires the lock process 2 believes it still holds. -/
def cx14 : CSys := ⟨some 0, cx13.occ, setP cx13.procs 0 (Proc.enterP "x" EnterPC.readSt)⟩

/-- Process 0 reads no state (process 2 has not written yet) and begins its
destructive phase: two enters now run their swaps concurrently. -/
def cx15 : CSys := ⟨cx14.lock, cx14.occ, setP cx14.procs 0 (Proc.enterP "x" EnterPC.dumpHost)⟩

def cx16 : CSys := ⟨cx15.lock, cx15.occ, setP cx15.procs 2 (Proc.enterP "z" EnterPC.cleanW)⟩

def cx17 : CSys := ⟨cx16.lock, cx16.occ, setP cx16.procs 2 (Proc.enterP "z" EnterPC.restoreE)⟩

def cx18 : CSys := ⟨cx17.lock, cx17.occ, setP cx17.procs 2 (Proc.enterP "z" EnterPC.writeSt)⟩

/-- Process 2 writes the occupancy record for `z` while process 0 is still
mid-destructive-phase. -/
def cx19 : CSys := ⟨cx18.lock, some "z", setP cx18.procs 2 (Proc.enterP "z" (EnterPC.unlock true))⟩

/-- C2 (code bug): modeled faithfully — including the post-sleep second
`releaseLock` that `enterEnv`'s `finally` block performs after `continue` —
the claimed mutual exclusion fails on the code.  From a legitimate initial
configuration (tree occupied by `y`, all processes at their start), the
exhibited interleaving reaches a state in which the contending enter of `x`
(which had observed the tree busy and slept) is inside its destructive phase
while `z` occupies the tree without having exited, and two processes sit inside
the lock-protected critical section at once.  The wake step is the sole
culprit: `inv_qreach` proves exclusion for every wake-free interleaving. -/
theorem ccenv_C2 :
    Reach cx0 cx19 ∧
    enterDestr (cx19.procs 0) = true ∧
    cx19.occ = some "z" ∧
    needsLock (cx19.procs 0) = true ∧
    needsLock (cx19.procs 2) = true ∧
    (0 : Nat) ≠ 2 := by
  refine ⟨?_, rfl, rfl, rfl, rfl, by decide⟩
  have h1 : CStep cx0 cx1 := CStep.enterLock cx0 0 "x" rfl rfl
  have h2 : CStep cx1 cx2 := CStep.enterReadBusy cx1 0 "x" "y" rfl rfl (by decide)
  have h3 : CStep cx2 cx3 := CStep.enterWait cx2 0 "x" rfl
  have h4 : CStep cx3 cx4 := CStep.exitLock cx3 1 (some "y") false rfl rfl
  have h5 : CStep cx4 cx5 := CStep.exitReadOk cx4 1 (some "y") false "y" rfl rfl (Or.inr rfl)
  have h6 : CStep cx5 cx6 := CStep.exitDump cx5 1 (some "y") false rfl
  have h7 : CStep cx6 cx7 := CStep.exitClean cx6 1 (some "y") false rfl
  have h8 : CStep cx7 cx8 := CStep.exitRestore cx7 1 (some "y") false rfl
  have h9 : CStep cx8 cx9 := CStep.exitRm cx8 1 (some "y") false rfl
  have h10 : CStep cx9 cx10 := CStep.exitUnlockOk cx9 1 (some "y") false rfl
  have h11 : CStep cx10 cx11 := CStep.enterLock cx10 2 "z" rfl rfl
  have h12 : CStep cx11 cx12 := CStep.enterReadFree cx11 2 "z" rfl rfl
  have h13 : CStep cx12 cx13 := CStep.enterWake cx12 0 "x" rfl
  have h14 : CStep cx13 cx14 := CStep.enterLock cx13 0 "x" rfl rfl
  have h15 : CStep cx14 cx15 := CStep.enterReadFree cx14 0 "x" rfl rfl
  have h16 : CStep cx15 cx16 := CStep.enterDump cx15 2 "z" rfl
  have h17 : CStep cx16 cx17 := CStep.enterClean cx16 2 "z" rfl
  have h18 : CStep cx17 cx18 := CStep.enterRestore cx17 2 "z" rfl
  have h19 : CStep cx18 cx19 := CStep.enterWrite cx18 2 "z" rfl
  exact Reach.step (Reach.step (Reach.step (Reach.step (Reach.step (Reach.step
    (Reach.step (Reach.step (Reach.step (Reach.step (Reach.step (Reach.step
    (Reach.step (Reach.step (Reach.step (Reach.step (Reach.step (Reach.step
    (Reach.step Reach.refl h1) h2) h3) h4) h5) h6) h7) h8) h9) h10) h11) h12)
    h13) h14) h15) h16) h17) h18) h19

end Ccenv.Mutex
